import Mathlib

/-!
# Verification of the wabus-backend core against its specification

This file is a shallow embedding, in Lean 4, of the parts of the
`wabus-backend` Go repository that the specification's claims are about:

* the live-vehicle store (`internal/store/store.go`): `Store.Update`,
  `Store.PruneStale`, `Store.List`, the secondary indices and `hasChanged`;
* the static-schedule store (`internal/store` GTFS store): `GetActiveRouteShapes`,
  `GetStopSchedule`, `GetStopScheduleForDate`, `getActiveServices`;
* the GTFS parser (`pkg/gtfs`): `parseGTFSTimeToSeconds`, `formatGTFSTime`,
  `buildRouteStops`, `buildTripTimeRanges`;
* the schedule ingestor (`internal/ingestor`): the `update` step's error paths;
* the tile math (`internal/hub/tile.go`): the rectangle loop of `TilesInBBox`;
* the HTTP handler helper `parseTimeToMinutes` and the `GetRouteShape` decision
  logic.

Modelling conventions, fixed once for the whole file:

* Go `map[K]V` is modelled as an association list `List (K × V)` with the
  operations `mapLookup` / `mapSet` / `mapErase` below.  `mapSet` updates an
  existing key in place and appends a new key at the end, so the stored order
  is the insertion order.  Go randomises map iteration order; wherever a claim
  is sensitive to that order the iteration order is made an explicit input
  (see the parser-determinism section).
* Go `map[K]struct{}` (a set) is modelled as a duplicate-free `List K` with
  `setAdd` / `List.erase`.
* `float64` fields (latitude/longitude) are modelled as `ℚ`; `time.Time`
  values as `Int` instants (only `Equal`, `Before` and `Add` are used by the
  modelled code).  Go `int` / `uint32` / `uint16` are modelled as `Int` / `Nat`
  with the clamps the source performs written out explicitly.
* The Go structs keep their field names (lower-cased where Lean requires);
  `Type` fields are renamed `vtype` / `rtype` / `dtype` because `Type` is a
  Lean keyword.
-/

namespace Wabus

/-! ## Association-list model of Go maps -/

/-- Lookup in an association list, the model of reading a Go map. -/
def mapLookup {κ α : Type} [DecidableEq κ] : List (κ × α) → κ → Option α
  | [], _ => none
  | (k, v) :: rest, key => if k = key then some v else mapLookup rest key

/-- Write to an association list, the model of `m[key] = val` on a Go map:
an existing key is overwritten in place, a new key is appended. -/
def mapSet {κ α : Type} [DecidableEq κ] : List (κ × α) → κ → α → List (κ × α)
  | [], key, val => [(key, val)]
  | (k, v) :: rest, key, val =>
    if k = key then (k, val) :: rest else (k, v) :: mapSet rest key val

/-- Delete from an association list, the model of `delete(m, key)`. -/
def mapErase {κ α : Type} [DecidableEq κ] : List (κ × α) → κ → List (κ × α)
  | [], _ => []
  | (k, v) :: rest, key => if k = key then rest else (k, v) :: mapErase rest key

/-- Insertion into a Go set (`m[k] = struct{}{}` on a `map[K]struct{}`):
no duplicates, first insertion fixes the position. -/
def setAdd {κ : Type} [DecidableEq κ] (s : List κ) (k : κ) : List κ :=
  if k ∈ s then s else s ++ [k]

theorem mapLookup_mapSet_self {κ α : Type} [DecidableEq κ]
    (m : List (κ × α)) (k : κ) (v : α) : mapLookup (mapSet m k v) k = some v := by
  induction m with
  | nil => simp [mapSet, mapLookup]
  | cons hd tl ih =>
    obtain ⟨k', v'⟩ := hd
    by_cases h : k' = k
    · subst h; simp [mapSet, mapLookup]
    · simp [mapSet, mapLookup, h, ih]

theorem mapLookup_mapSet_ne {κ α : Type} [DecidableEq κ]
    (m : List (κ × α)) (k k' : κ) (v : α) (h : k ≠ k') :
    mapLookup (mapSet m k v) k' = mapLookup m k' := by
  induction m with
  | nil => simp [mapSet, mapLookup, h]
  | cons hd tl ih =>
    obtain ⟨k₀, v₀⟩ := hd
    by_cases h₀ : k₀ = k
    · subst h₀; simp [mapSet, mapLookup, h]
    · simp [mapSet, mapLookup, h₀, ih]

theorem mem_setAdd {κ : Type} [DecidableEq κ] (s : List κ) (k x : κ) :
    x ∈ setAdd s k ↔ x ∈ s ∨ x = k := by
  unfold setAdd
  by_cases h : k ∈ s
  · simp only [if_pos h]
    constructor
    · exact Or.inl
    · rintro (hx | rfl)
      · exact hx
      · exact h
  · simp [if_neg h]

theorem setAdd_ne_nil {κ : Type} [DecidableEq κ] (s : List κ) (k : κ) :
    setAdd s k ≠ [] := by
  unfold setAdd
  by_cases h : k ∈ s
  · simp only [if_pos h]
    intro hnil
    subst hnil
    exact absurd h (List.not_mem_nil k)
  · simp [if_neg h]

/-! ## Domain model: vehicles (`internal/domain`)

`domain.Vehicle`, `domain.VehicleType`, `domain.VehicleDelta` and
`domain.BoundingBox`.  `VehicleType` is a Go `int` (`1 = bus`, `2 = tram`). -/

/-- `domain.VehicleType` (`VehicleTypeBus = 1`, `VehicleTypeTram = 2`). -/
abbrev VehicleType := Int

def VehicleTypeBus : VehicleType := 1

def VehicleTypeTram : VehicleType := 2

/-- `domain.Vehicle`.  `Lat`/`Lon` are `float64` in Go, modelled as `ℚ`;
`Timestamp` and `UpdatedAt` are `time.Time`, modelled as `Int` instants. -/
structure Vehicle where
  key : String
  vehicleNumber : String
  vtype : VehicleType
  line : String
  brigade : String
  lat : ℚ
  lon : ℚ
  timestamp : Int
  tileID : String
  updatedAt : Int
deriving DecidableEq, Repr

/-- `domain.DeltaType`. -/
inductive DeltaType where
  | update
  | remove
deriving DecidableEq, Repr

/-- `domain.VehicleDelta`.  Go leaves `Vehicle` nil and `Key` empty on the
branch that does not use them; this is kept as `Option` / `""`. -/
structure VehicleDelta where
  dtype : DeltaType
  vehicle : Option Vehicle
  key : String
  tileID : String
deriving DecidableEq, Repr

/-- `domain.BoundingBox`. -/
structure BoundingBox where
  minLat : ℚ
  maxLat : ℚ
  minLon : ℚ
  maxLon : ℚ
deriving DecidableEq, Repr

/-- `BoundingBox.Contains`. -/
def BoundingBox.contains (bb : BoundingBox) (lat lon : ℚ) : Bool :=
  lat ≥ bb.minLat && lat ≤ bb.maxLat && lon ≥ bb.minLon && lon ≤ bb.maxLon

/-! ## Vehicle store (`internal/store/store.go`) -/

/-- `store.ListOptions`. -/
structure ListOptions where
  vtype : Option VehicleType
  line : String
  bbox : Option BoundingBox

/-- `store.Store` (without the mutex).  `staleAfter` is a duration in the
same `Int` instant scale as `Vehicle.updatedAt`. -/
structure Store where
  vehicles : List (String × Vehicle)
  byTile : List (String × List String)
  byLine : List (String × List String)
  byType : List (VehicleType × List String)
  staleAfter : Int
deriving DecidableEq, Repr

/-- `store.New`. -/
def Store.new (staleAfter : Int) : Store :=
  { vehicles := [], byTile := [], byLine := [], byType := [], staleAfter := staleAfter }

/-- `hasChanged` (store.go lines 253-278): `epsilon = 0.000001`. -/
def epsilon : ℚ := 1 / 1000000

/-- `hasChanged(old, new)`: true iff line or brigade differ, a coordinate
moved by more than `epsilon`, or the upstream timestamp differs.
`UpdatedAt` is not inspected. -/
def hasChanged (old new : Vehicle) : Bool :=
  if old.line ≠ new.line || old.brigade ≠ new.brigade then true
  else
    let latDiff := old.lat - new.lat
    let latDiff := if latDiff < 0 then -latDiff else latDiff
    let lonDiff := old.lon - new.lon
    let lonDiff := if lonDiff < 0 then -lonDiff else lonDiff
    if latDiff > epsilon || lonDiff > epsilon then true
    else if old.timestamp ≠ new.timestamp then true
    else false

/-- `Store.addToIndices` (store.go lines 209-224). -/
def Store.addToIndices (s : Store) (v : Vehicle) : Store :=
  let tileBucket := (mapLookup s.byTile v.tileID).getD []
  let s := { s with byTile := mapSet s.byTile v.tileID (setAdd tileBucket v.key) }
  let lineBucket := (mapLookup s.byLine v.line).getD []
  let s := { s with byLine := mapSet s.byLine v.line (setAdd lineBucket v.key) }
  let typeBucket := (mapLookup s.byType v.vtype).getD []
  { s with byType := mapSet s.byType v.vtype (setAdd typeBucket v.key) }

/-- `Store.removeFromTileIndex` (store.go lines 226-233): delete the key from
the tile bucket and drop the bucket when it becomes empty. -/
def Store.removeFromTileIndex (s : Store) (key tileID : String) : Store :=
  match mapLookup s.byTile tileID with
  | none => s
  | some bucket =>
    let bucket := bucket.erase key
    if bucket.isEmpty then { s with byTile := mapErase s.byTile tileID }
    else { s with byTile := mapSet s.byTile tileID bucket }

/-- `Store.removeFromAllIndices` (store.go lines 235-251). -/
def Store.removeFromAllIndices (s : Store) (v : Vehicle) : Store :=
  let s := s.removeFromTileIndex v.key v.tileID
  let s :=
    match mapLookup s.byLine v.line with
    | none => s
    | some bucket =>
      let bucket := bucket.erase v.key
      if bucket.isEmpty then { s with byLine := mapErase s.byLine v.line }
      else { s with byLine := mapSet s.byLine v.line bucket }
  match mapLookup s.byType v.vtype with
  | none => s
  | some bucket =>
    let bucket := bucket.erase v.key
    if bucket.isEmpty then { s with byType := mapErase s.byType v.vtype }
    else { s with byType := mapSet s.byType v.vtype bucket }

/-- The body of the `for _, v := range vehicles` loop of `Store.Update`
(store.go lines 43-63), acting on one vehicle. -/
def Store.updateOne (now : Int) (s : Store) (v : Vehicle) :
    Store × Option VehicleDelta :=
  let v' := { v with updatedAt := now }
  match mapLookup s.vehicles v.key with
  | none =>
    let s := { s with vehicles := mapSet s.vehicles v.key v' }
    let s := s.addToIndices v'
    (s, some { dtype := .update, vehicle := some v', key := "", tileID := v'.tileID })
  | some existing =>
    if hasChanged existing v' then
      let s := if existing.tileID ≠ v'.tileID
        then s.removeFromTileIndex existing.key existing.tileID else s
      let s := { s with vehicles := mapSet s.vehicles v.key v' }
      let s := s.addToIndices v'
      (s, some { dtype := .update, vehicle := some v', key := "", tileID := v'.tileID })
    else
      ({ s with vehicles :=
          mapSet s.vehicles v.key { existing with updatedAt := now } }, none)

/-- `Store.Update` (store.go lines 36-66): fold `updateOne` over the input
list, collecting the deltas in input order.  `now` models `time.Now()`. -/
def Store.update (s : Store) (now : Int) (vs : List Vehicle) :
    Store × List VehicleDelta :=
  vs.foldl
    (fun acc v =>
      ((Store.updateOne now acc.1 v).1, acc.2 ++ (Store.updateOne now acc.1 v).2.toList))
    (s, [])

/-- `Store.PruneStale` (store.go lines 68-88).  Go iterates the `vehicles`
map while deleting only the entry at hand, which visits exactly the entries
present at the start; the fold below does the same over the stored order. -/
def Store.pruneStale (s : Store) (now : Int) : Store × List VehicleDelta :=
  let cutoff := now - s.staleAfter
  s.vehicles.foldl
    (fun acc kv =>
      let (key, v) := kv
      if v.updatedAt < cutoff then
        let s := acc.1.removeFromAllIndices v
        let s := { s with vehicles := mapErase s.vehicles key }
        (s, acc.2 ++ [{ dtype := .remove, vehicle := none, key := key, tileID := v.tileID }])
      else acc)
    (s, [])

/-- `Store.intersect` (store.go lines 179-196): nil-map guard, then probe the
smaller set against the larger.  `none` models a nil Go map. -/
def Store.intersect (a b : Option (List String)) : List String :=
  match a, b with
  | some a, some b =>
    let (smaller, larger) := if a.length > b.length then (b, a) else (a, b)
    smaller.filter (fun key => key ∈ larger)
  | _, _ => []

/-- `Store.getCandidates` (store.go lines 161-177). -/
def Store.getCandidates (s : Store) (opts : ListOptions) : List String :=
  match opts.vtype with
  | some t =>
    if opts.line ≠ "" then
      Store.intersect (mapLookup s.byType t) (mapLookup s.byLine opts.line)
    else (mapLookup s.byType t).getD []
  | none =>
    if opts.line ≠ "" then (mapLookup s.byLine opts.line).getD []
    else s.vehicles.map Prod.fst

/-- `Store.List` (store.go lines 101-118).  Go dereferences
`s.vehicles[key]` without checking presence; a candidate key absent from the
`vehicles` map makes the Go code dereference a nil pointer, modelled as
`none` (a panic). -/
def Store.list (s : Store) (opts : ListOptions) : Option (List Vehicle) :=
  (s.getCandidates opts).foldl
    (fun acc key =>
      match acc with
      | none => none
      | some result =>
        match mapLookup s.vehicles key with
        | none => none
        | some v =>
          match opts.bbox with
          | some bb => if bb.contains v.lat v.lon then some (result ++ [v]) else some result
          | none => some (result ++ [v]))
    (some [])

/-! ## Basic store lemmas -/

theorem addToIndices_vehicles (s : Store) (v : Vehicle) :
    (s.addToIndices v).vehicles = s.vehicles := rfl

theorem removeFromTileIndex_vehicles (s : Store) (key tileID : String) :
    (s.removeFromTileIndex key tileID).vehicles = s.vehicles := by
  unfold Store.removeFromTileIndex
  cases mapLookup s.byTile tileID with
  | none => rfl
  | some bucket =>
    by_cases h : (bucket.erase key).isEmpty <;> simp [h]

theorem ite_removeFromTileIndex_vehicles (c : Prop) [Decidable c] (s : Store)
    (a b : String) :
    (if c then s.removeFromTileIndex a b else s).vehicles = s.vehicles := by
  by_cases h : c <;> simp [h, removeFromTileIndex_vehicles]

theorem hasChanged_updatedAt_right (a b : Vehicle) (t : Int) :
    hasChanged a { b with updatedAt := t } = hasChanged a b := rfl

theorem hasChanged_updatedAt_left (a b : Vehicle) (t : Int) :
    hasChanged { a with updatedAt := t } b = hasChanged a b := rfl

theorem hasChanged_self (v : Vehicle) : hasChanged v v = false := by
  unfold hasChanged
  simp only [ne_eq, not_true_eq_false, sub_self]
  norm_num [epsilon]

/-- The store component of `updateOne` leaves every other key's `vehicles`
entry untouched. -/
theorem updateOne_vehicles_ne (now : Int) (s : Store) (v : Vehicle) (k : String)
    (h : k ≠ v.key) :
    mapLookup (Store.updateOne now s v).1.vehicles k = mapLookup s.vehicles k := by
  unfold Store.updateOne
  cases hl : mapLookup s.vehicles v.key with
  | none =>
    simp only [addToIndices_vehicles]
    exact mapLookup_mapSet_ne _ _ _ _ fun hk => h hk.symm
  | some existing =>
    dsimp only
    by_cases hc : hasChanged existing { v with updatedAt := now } = true
    · simp only [hc, if_true, addToIndices_vehicles, ite_removeFromTileIndex_vehicles]
      exact mapLookup_mapSet_ne _ _ _ _ fun hk => h hk.symm
    · rw [if_neg hc]
      exact mapLookup_mapSet_ne _ _ _ _ fun hk => h hk.symm

/-- After `updateOne now s v`, the entry at `v.key` compares unchanged
against `v` and carries `updatedAt = now`. -/
theorem updateOne_vehicles_self (now : Int) (s : Store) (v : Vehicle) :
    ∃ w, mapLookup (Store.updateOne now s v).1.vehicles v.key = some w ∧
      hasChanged w v = false ∧ w.updatedAt = now := by
  unfold Store.updateOne
  cases hl : mapLookup s.vehicles v.key with
  | none =>
    refine ⟨{ v with updatedAt := now }, ?_, ?_, rfl⟩
    · simp only [addToIndices_vehicles]
      exact mapLookup_mapSet_self _ _ _
    · rw [hasChanged_updatedAt_left]; exact hasChanged_self v
  | some existing =>
    dsimp only
    by_cases hc : hasChanged existing { v with updatedAt := now } = true
    · refine ⟨{ v with updatedAt := now }, ?_, ?_, rfl⟩
      · simp only [hc, if_true, addToIndices_vehicles, ite_removeFromTileIndex_vehicles]
        exact mapLookup_mapSet_self _ _ _
      · rw [hasChanged_updatedAt_left]; exact hasChanged_self v
    · refine ⟨{ existing with updatedAt := now }, ?_, ?_, rfl⟩
      · rw [if_neg hc]
        exact mapLookup_mapSet_self _ _ _
      · rw [hasChanged_updatedAt_left]
        rw [hasChanged_updatedAt_right] at hc
        exact Bool.not_eq_true _ ▸ hc

/-- In the refresh branch (`hasChanged` is false for the stored entry),
`updateOne` only rewrites the entry's `updatedAt` and emits no delta. -/
theorem updateOne_refresh (now : Int) (s : Store) (v : Vehicle) (w : Vehicle)
    (hl : mapLookup s.vehicles v.key = some w) (hc : hasChanged w v = false) :
    Store.updateOne now s v =
      ({ s with vehicles := mapSet s.vehicles v.key { w with updatedAt := now } }, none) := by
  unfold Store.updateOne
  rw [hl]
  simp only [hasChanged_updatedAt_right, hc]
  rfl

/-- Unfolding `Store.update` one step: the fold threads the store and appends
the step's delta. -/
theorem update_go (s : Store) (now : Int) (vs : List Vehicle)
    (acc : List VehicleDelta) :
    vs.foldl
      (fun acc v =>
        ((Store.updateOne now acc.1 v).1, acc.2 ++ (Store.updateOne now acc.1 v).2.toList))
      (s, acc) =
    ((Store.update s now vs).1, acc ++ (Store.update s now vs).2) := by
  induction vs generalizing s acc with
  | nil => simp [Store.update]
  | cons u t ih =>
    simp only [Store.update, List.foldl_cons, List.nil_append]
    rw [ih, ih]
    simp [Store.update, List.append_assoc]

theorem update_cons (s : Store) (now : Int) (u : Vehicle) (t : List Vehicle) :
    Store.update s now (u :: t) =
      ((Store.update (Store.updateOne now s u).1 now t).1,
        (Store.updateOne now s u).2.toList ++
          (Store.update (Store.updateOne now s u).1 now t).2) := by
  simp only [Store.update, List.foldl_cons]
  exact update_go _ _ _ _

/-- Keys not mentioned in the input keep their `vehicles` entry across a
whole `Store.update`. -/
theorem update_vehicles_not_mem (s : Store) (now : Int) (vs : List Vehicle)
    (k : String) (h : k ∉ vs.map Vehicle.key) :
    mapLookup (Store.update s now vs).1.vehicles k = mapLookup s.vehicles k := by
  induction vs generalizing s with
  | nil => simp [Store.update]
  | cons u t ih =>
    simp only [List.map_cons, List.mem_cons, not_or] at h
    rw [update_cons]
    simp only
    rw [ih _ h.2, updateOne_vehicles_ne now s u k h.1]

/-- After `Store.update s now vs` with pairwise-distinct keys, every input
vehicle has a stored entry that compares unchanged against it. -/
theorem update_establishes (vs : List Vehicle) (s : Store) (now : Int)
    (hnd : (vs.map Vehicle.key).Nodup) :
    ∀ v ∈ vs, ∃ w, mapLookup (Store.update s now vs).1.vehicles v.key = some w ∧
      hasChanged w v = false := by
  induction vs generalizing s with
  | nil => intro v hv; exact absurd hv (List.not_mem_nil v)
  | cons u t ih =>
    simp only [List.map_cons, List.nodup_cons] at hnd
    intro v hv
    rcases List.mem_cons.mp hv with rfl | hvt
    · obtain ⟨w, hw, hcw, -⟩ := updateOne_vehicles_self now s v
      refine ⟨w, ?_, hcw⟩
      rw [update_cons]
      simp only
      rw [update_vehicles_not_mem _ _ _ _ hnd.1, hw]
    · rw [update_cons]
      exact ih (Store.updateOne now s u).1 hnd.2 v hvt

/-- If every input vehicle already has a stored entry that compares
unchanged, `Store.update` emits no deltas and merely refreshes `updatedAt`
(keys pairwise distinct). -/
theorem update_refresh (vs : List Vehicle) (s : Store) (now : Int)
    (hnd : (vs.map Vehicle.key).Nodup)
    (hpre : ∀ v ∈ vs, ∃ w, mapLookup s.vehicles v.key = some w ∧ hasChanged w v = false) :
    (Store.update s now vs).2 = [] ∧
      ∀ v ∈ vs, ∃ w, mapLookup (Store.update s now vs).1.vehicles v.key = some w ∧
        w.updatedAt = now := by
  induction vs generalizing s with
  | nil => exact ⟨rfl, fun v hv => absurd hv (List.not_mem_nil v)⟩
  | cons u t ih =>
    simp only [List.map_cons, List.nodup_cons] at hnd
    obtain ⟨w, hw, hcw⟩ := hpre u (List.mem_cons_self u t)
    have hstep := updateOne_refresh now s u w hw hcw
    have hs₁ : (Store.updateOne now s u).1 =
        { s with vehicles := mapSet s.vehicles u.key { w with updatedAt := now } } := by
      rw [hstep]
    have hpre' : ∀ v ∈ t, ∃ w', mapLookup (Store.updateOne now s u).1.vehicles v.key
        = some w' ∧ hasChanged w' v = false := by
      intro v hv
      obtain ⟨w', hw', hcw'⟩ := hpre v (List.mem_cons_of_mem u hv)
      refine ⟨w', ?_, hcw'⟩
      rw [hs₁]
      simp only
      rw [mapLookup_mapSet_ne]
      · exact hw'
      · intro hk
        exact hnd.1 (hk ▸ (List.mem_map.mpr ⟨v, hv, rfl⟩))
    obtain ⟨hdeltas, hafter⟩ := ih (Store.updateOne now s u).1 hnd.2 hpre'
    constructor
    · rw [update_cons]
      simp only [hdeltas]
      rw [hstep]
      rfl
    · intro v hv
      rcases List.mem_cons.mp hv with rfl | hvt
      · refine ⟨{ w with updatedAt := now }, ?_, rfl⟩
        rw [update_cons]
        simp only
        rw [update_vehicles_not_mem _ _ _ _ hnd.1, hs₁]
        simp only
        exact mapLookup_mapSet_self _ _ _
      · rw [update_cons]
        exact hafter v hvt

/-! ## Concrete vehicle-store scenarios

A vehicle observed on line `520`, then re-observed under the same key on
line `521` (same tile).  `Store.Update` replaces the record and adds the key
to `byLine["521"]`, but — unlike the tile index — never removes it from
`byLine["520"]` (or from the old `byType` bucket when the type changes). -/

def busA : Vehicle :=
  { key := "1:1000", vehicleNumber := "1000", vtype := VehicleTypeBus, line := "520",
    brigade := "1", lat := 52, lon := 21, timestamp := 10, tileID := "14/1/1", updatedAt := 0 }

def busA521 : Vehicle := { busA with line := "521", timestamp := 20 }

/-- The store after `Update([busA])` at instant 100 followed by
`Update([busA521])` at instant 200 (`staleAfter = 300`). -/
def storeLineChanged : Store :=
  (((Store.new 300).update 100 [busA]).1.update 200 [busA521]).1

/-- `storeLineChanged` after a `PruneStale` at instant 10000, which evicts
the (now stale) vehicle. -/
def storePruned : Store := (storeLineChanged.pruneStale 10000).1

/-- **C1.** The claimed store invariant fails: after a vehicle's line changes
from `520` to `521`, `Store.Update` leaves the old `byLine["520"]` entry in
place (it only migrates the tile index), and after the vehicle is pruned the
stale `byLine["520"]` bucket references a key that is no longer in the
`vehicles` map at all — the old entry is *not* removed from all three
secondary indices as the invariant requires. -/
theorem update_line_change_leaves_stale_index :
    (mapLookup storeLineChanged.vehicles "1:1000").map Vehicle.line = some "521" ∧
    mapLookup storeLineChanged.byLine "520" = some ["1:1000"] ∧
    mapLookup storeLineChanged.byLine "521" = some ["1:1000"] ∧
    mapLookup storePruned.vehicles "1:1000" = none ∧
    mapLookup storePruned.byLine "520" = some ["1:1000"] := by
  decide

/-- **C2.** `Store.List` does not satisfy the claimed filter contract on
reachable states: after the line change of `storeLineChanged`,
`List({line = "520"})` returns the vehicle whose `line` is `"521"`, and after
the subsequent prune the same query dereferences a missing key (a nil-pointer
panic in Go, modelled as `none`). -/
theorem list_line_filter_mismatch :
    storeLineChanged.list { vtype := none, line := "520", bbox := none } =
      some [{ busA521 with updatedAt := 200 }] ∧
    ({ busA521 with updatedAt := 200 } : Vehicle).line ≠ "520" ∧
    storePruned.list { vtype := none, line := "520", bbox := none } = none := by
  decide

/-- **C8 (amended).** `Store.Update` is delta-idempotent for input lists whose
keys are pairwise distinct: running `update vs` twice (from any store state)
makes the second call return no deltas while refreshing each matched
vehicle's `updatedAt` to the second call's instant. -/
theorem update_update_no_deltas (s : Store) (now₁ now₂ : Int) (vs : List Vehicle)
    (h : (vs.map Vehicle.key).Nodup) :
    (Store.update (Store.update s now₁ vs).1 now₂ vs).2 = [] ∧
    ∀ v ∈ vs, ∃ w,
      mapLookup (Store.update (Store.update s now₁ vs).1 now₂ vs).1.vehicles v.key
        = some w ∧ w.updatedAt = now₂ := by
  have hpre := update_establishes vs s now₁ h
  have hmain := update_refresh vs (Store.update s now₁ vs).1 now₂ h hpre
  exact ⟨hmain.1, hmain.2⟩

/-- Witness for `update_update_no_deltas` at the concrete single-vehicle
input of the spec's scenario. -/
theorem update_update_no_deltas_witness :
    (([busA].map Vehicle.key).Nodup) ∧
    (Store.update (Store.update (Store.new 300) 100 [busA]).1 200 [busA]).2 = [] := by
  refine ⟨by decide, ?_⟩
  exact (update_update_no_deltas (Store.new 300) 100 200 [busA] (by decide)).1

/-- **C8 (counterexample).** The claim as stated — for *every* vehicle list —
fails: with a duplicate key whose two occurrences differ (here in `line`),
the second `Update` call on the identical list still emits deltas, because
each occurrence keeps overwriting the other. -/
theorem update_update_duplicate_key_counterexample :
    (Store.update (Store.update (Store.new 300) 100 [busA, busA521]).1 200
      [busA, busA521]).2 ≠ [] := by
  decide

/-! ## Domain model: GTFS schedule (`internal/domain`) -/

/-- `domain.Route` (`Type` is a Go `int`-backed `RouteType`). -/
structure Route where
  id : String
  shortName : String
  longName : String
  rtype : Int
  color : String
  textColor : String
deriving DecidableEq, Repr

/-- `domain.ShapePoint`. -/
structure ShapePoint where
  lat : ℚ
  lon : ℚ
  sequence : Int
deriving DecidableEq, Repr

/-- `domain.Shape` (`DirectionID *int` is an optional pointer). -/
structure Shape where
  id : String
  points : List ShapePoint
  directionID : Option Int
deriving DecidableEq, Repr

/-- `domain.Stop`. -/
structure Stop where
  id : String
  code : String
  name : String
  lat : ℚ
  lon : ℚ
  zone : String
deriving DecidableEq, Repr

/-- `domain.StopTime` (the decoded, user-facing record). -/
structure StopTime where
  tripID : String
  routeID : String
  serviceID : String
  line : String
  headsign : String
  arrivalTime : String
  departureTime : String
  stopSequence : Nat
deriving DecidableEq, Repr

/-- `domain.Calendar`. -/
structure Calendar where
  serviceID : String
  monday : Bool
  tuesday : Bool
  wednesday : Bool
  thursday : Bool
  friday : Bool
  saturday : Bool
  sunday : Bool
  startDate : String
  endDate : String
deriving DecidableEq, Repr

/-- `domain.CalendarDate` (`1 = added`, `2 = removed`). -/
structure CalendarDate where
  serviceID : String
  date : String
  exceptionType : Int
deriving DecidableEq, Repr

/-- `domain.TripTimeEntry`. -/
structure TripTimeEntry where
  shapeID : String
  serviceID : String
  directionID : Int
  startMinutes : Int
  endMinutes : Int
deriving DecidableEq, Repr

/-- `domain.TripMeta`. -/
structure TripMeta where
  id : String
  routeID : String
  serviceID : String
  shapeID : String
  headsign : String
  directionID : Int
deriving DecidableEq, Repr

/-- `domain.StopTimeCompact` (`uint32`/`uint16` fields modelled as `Nat`;
the parser's clamps keep them in range). -/
structure StopTimeCompact where
  tripIndex : Nat
  arrivalSeconds : Nat
  departureSeconds : Nat
  stopSequence : Nat
deriving DecidableEq, Repr

/-- `domain.StopLine`. -/
structure StopLine where
  routeID : String
  line : String
  longName : String
  ltype : Int
  color : String
  headsigns : List String
deriving DecidableEq, Repr

/-- Go `time.Weekday` (`Sunday = 0`). -/
inductive Weekday where
  | sunday
  | monday
  | tuesday
  | wednesday
  | thursday
  | friday
  | saturday
deriving DecidableEq, Repr

/-! ## GTFS schedule store (`internal/store`, the `GTFSStore` file)

`date.Format("20060102")` and `date.Weekday()` — and the analogous values for
`date.AddDate(0, 0, -1)` — are Go standard-library date computations outside
the modelled code; the store's query functions receive their results
(`dateStr : String` in `YYYYMMDD` form plus a `Weekday`) as explicit inputs,
exactly the shape of the private Go method `getActiveServices(dateStr,
weekday)`. -/

/-- `store.GTFSStore` (without the mutex); `lastUpdate` as `Int` instant. -/
structure GTFSStore where
  routes : List (String × Route)
  routesByLine : List (String × Route)
  shapes : List (String × Shape)
  routeShapes : List (String × List String)
  stops : List (String × Stop)
  routeStops : List (String × List Stop)
  routeTripTimes : List (String × List TripTimeEntry)
  stopSchedules : List (String × List StopTimeCompact)
  stopLines : List (String × List StopLine)
  trips : List TripMeta
  calendars : List (String × Calendar)
  calendarDates : List (String × List CalendarDate)
  shapeDirections : List (String × Int)
  lastUpdate : Int
deriving DecidableEq, Repr

/-- Go compares strings byte-lexicographically; on the ASCII `YYYYMMDD`
date strings the code compares, that is exactly this character-wise
comparison. -/
def charListLt : List Char → List Char → Bool
  | [], [] => false
  | [], _ :: _ => true
  | _ :: _, [] => false
  | a :: as, b :: bs =>
    if a.toNat < b.toNat then true
    else if b.toNat < a.toNat then false
    else charListLt as bs

/-- Go `a < b` on strings. -/
def goStringLt (a b : String) : Bool := charListLt a.data b.data

/-- `GTFSStore.getActiveServices(dateStr, weekday)`: calendars filtered by the
date window and weekday flag, then calendar-date exceptions applied in file
order (type 1 adds, type 2 removes). -/
def getActiveServices (s : GTFSStore) (dateStr : String) (weekday : Weekday) :
    List String :=
  let active := s.calendars.foldl
    (fun active p =>
      let serviceID := p.1
      let cal := p.2
      if goStringLt dateStr cal.startDate || goStringLt cal.endDate dateStr then active
      else
        let isActive :=
          match weekday with
          | .monday => cal.monday
          | .tuesday => cal.tuesday
          | .wednesday => cal.wednesday
          | .thursday => cal.thursday
          | .friday => cal.friday
          | .saturday => cal.saturday
          | .sunday => cal.sunday
        if isActive then setAdd active serviceID else active)
    []
  s.calendarDates.foldl
    (fun active p =>
      let serviceID := p.1
      p.2.foldl
        (fun active cd =>
          if cd.date = dateStr then
            if cd.exceptionType = 1 then setAdd active serviceID
            else if cd.exceptionType = 2 then active.erase serviceID
            else active
          else active)
        active)
    active

/-- `formatGTFSTime` (the `%02d:%02d:%02d` rendering, hour not reduced
modulo 24).  `pad2` models `%02d`. -/
def pad2 (n : Nat) : String := if n < 10 then "0" ++ toString n else toString n

def formatGTFSTime (totalSeconds : Nat) : String :=
  let hours := totalSeconds / 3600
  let minutes := totalSeconds % 3600 / 60
  let seconds := totalSeconds % 60
  pad2 hours ++ ":" ++ pad2 minutes ++ ":" ++ pad2 seconds

/-- `GTFSStore.decodeStopTimeLocked`: join the compact row with its
`TripMeta` and `Route`; `none` models the `ok = false` out-of-bounds case
(the Go index is an `int` cast of a `uint32`, so only the upper bound can
fail). -/
def decodeStopTimeLocked (s : GTFSStore) (st : StopTimeCompact) : Option StopTime :=
  if h : st.tripIndex < s.trips.length then
    let trip := s.trips.get ⟨st.tripIndex, h⟩
    let line :=
      match mapLookup s.routes trip.routeID with
      | some route => route.shortName
      | none => ""
    some { tripID := trip.id, routeID := trip.routeID, serviceID := trip.serviceID,
           line := line, headsign := trip.headsign,
           arrivalTime := formatGTFSTime st.arrivalSeconds,
           departureTime := formatGTFSTime st.departureSeconds,
           stopSequence := st.stopSequence }
  else none

/-- `GTFSStore.GetStopSchedule`: decode every compact row, dropping the ones
whose trip index is out of bounds. -/
def GetStopSchedule (s : GTFSStore) (stopID : String) : List StopTime :=
  match mapLookup s.stopSchedules stopID with
  | none => []
  | some schedule => schedule.filterMap (fun st => decodeStopTimeLocked s st)

/-- `GTFSStore.GetStopScheduleForDate`: as `GetStopSchedule` but skip rows
whose trip is out of bounds or whose service is not active on the date. -/
def GetStopScheduleForDate (s : GTFSStore) (stopID : String)
    (dateStr : String) (weekday : Weekday) : List StopTime :=
  match mapLookup s.stopSchedules stopID with
  | none => []
  | some schedule =>
    let activeServices := getActiveServices s dateStr weekday
    schedule.filterMap (fun st =>
      if h : st.tripIndex < s.trips.length then
        let trip := s.trips.get ⟨st.tripIndex, h⟩
        if trip.serviceID ∈ activeServices then decodeStopTimeLocked s st
        else none
      else none)

/-- If `g` only ever succeeds where `f` succeeds with the same value, the
`g`-filtered list is a sublist of the `f`-filtered one. -/
theorem filterMap_sublist_filterMap {α β : Type} (f g : α → Option β) (l : List α)
    (h : ∀ x y, g x = some y → f x = some y) :
    (l.filterMap g).Sublist (l.filterMap f) := by
  induction l with
  | nil => simp
  | cons a t ih =>
    rw [List.filterMap_cons, List.filterMap_cons]
    cases hg : g a with
    | none =>
      cases hf : f a with
      | none => exact ih
      | some b => exact ih.cons b
    | some y => rw [h a y hg]; exact ih.cons₂ y

/-- **C9.** For every store state, stop and date, the date-filtered schedule
is a sublist (hence a subset, preserving multiplicity and order) of the
unfiltered schedule: the filter only drops rows whose service is inactive,
it never produces a row the unfiltered query lacks. -/
theorem getStopScheduleForDate_sublist (s : GTFSStore) (stopID : String)
    (dateStr : String) (weekday : Weekday) :
    (GetStopScheduleForDate s stopID dateStr weekday).Sublist
      (GetStopSchedule s stopID) := by
  unfold GetStopScheduleForDate GetStopSchedule
  cases mapLookup s.stopSchedules stopID with
  | none => simp
  | some schedule =>
    apply filterMap_sublist_filterMap
    intro st y hy
    by_cases h : st.tripIndex < s.trips.length
    · rw [dif_pos h] at hy
      by_cases ha : (s.trips.get ⟨st.tripIndex, h⟩).serviceID ∈
          getActiveServices s dateStr weekday
      · rw [if_pos ha] at hy; exact hy
      · rw [if_neg ha] at hy; exact absurd hy (by simp)
    · rw [dif_neg h] at hy
      exact absurd hy (by simp)

/-! ## Active route shapes (`GTFSStore.GetActiveRouteShapes`) -/

/-- The defensive copy the store hands out: the shape with `DirectionID`
populated from `shapeDirections` (zero-value `0` when absent). -/
def shapeWithDirection (s : GTFSStore) (shapeID : String) (shape : Shape) : Shape :=
  { id := shape.id, points := shape.points,
    directionID := some ((mapLookup s.shapeDirections shapeID).getD 0) }

/-- `GTFSStore.getRouteShapesLocked` (also the body of `GetRouteShapes`):
all shapes attached to the route, in `routeShapes` order, skipping dangling
shape ids. -/
def getRouteShapesLocked (s : GTFSStore) (routeID : String) : List Shape :=
  match mapLookup s.routeShapes routeID with
  | none => []
  | some shapeIDs =>
    shapeIDs.filterMap (fun sid => (mapLookup s.shapes sid).map (shapeWithDirection s sid))

/-- `GTFSStore.GetRouteShapes`. -/
def GetRouteShapes (s : GTFSStore) (routeID : String) : List Shape :=
  getRouteShapesLocked s routeID

/-- The first condition of the loop in `GetActiveRouteShapes`: today's
services, `[startMinutes, endMinutes]` overlapping
`[timeMinutes − 30, timeMinutes + 30]`. -/
def tripActiveToday (activeServices : List String) (timeMinutes : Int)
    (tt : TripTimeEntry) : Prop :=
  tt.serviceID ∈ activeServices ∧
    tt.startMinutes ≤ timeMinutes + 30 ∧ tt.endMinutes ≥ timeMinutes - 30

instance (a : List String) (m : Int) (tt : TripTimeEntry) :
    Decidable (tripActiveToday a m tt) := by
  unfold tripActiveToday; infer_instance

/-- The second condition: yesterday's services, `endMinutes > 1440`, and the
overlap test against `timeMinutes + 1440`. -/
def tripActiveYesterday (yesterdayServices : List String) (timeMinutes : Int)
    (tt : TripTimeEntry) : Prop :=
  tt.serviceID ∈ yesterdayServices ∧ tt.endMinutes > 1440 ∧
    tt.startMinutes ≤ (timeMinutes + 1440) + 30 ∧ tt.endMinutes ≥ (timeMinutes + 1440) - 30

instance (a : List String) (m : Int) (tt : TripTimeEntry) :
    Decidable (tripActiveYesterday a m tt) := by
  unfold tripActiveYesterday; infer_instance

/-- The body of the `for _, tt := range tripTimes` loop: conditionally insert
`tt.ShapeID` into the `activeShapeIDs` set for each of the two rules. -/
def activeShapeStep (activeServices yesterdayServices : List String)
    (timeMinutes : Int) (ids : List String) (tt : TripTimeEntry) : List String :=
  let ids := if tripActiveToday activeServices timeMinutes tt
    then setAdd ids tt.shapeID else ids
  if tripActiveYesterday yesterdayServices timeMinutes tt
    then setAdd ids tt.shapeID else ids

/-- `GTFSStore.GetActiveRouteShapes(routeID, date, timeMinutes)`.  As with
`getActiveServices`, today's and yesterday's `(dateStr, weekday)` pairs stand
for `date.Format`/`date.Weekday` and the same for `date.AddDate(0,0,-1)`.
Go iterates the `activeShapeIDs` map in random order; the model uses
insertion order (the claims below are order-insensitive). -/
def GetActiveRouteShapes (s : GTFSStore) (routeID : String)
    (dateStr : String) (weekday : Weekday)
    (yesterdayStr : String) (yesterdayWeekday : Weekday)
    (timeMinutes : Int) : List Shape :=
  match mapLookup s.routeTripTimes routeID with
  | none => getRouteShapesLocked s routeID
  | some tripTimes =>
    let activeServices := getActiveServices s dateStr weekday
    let yesterdayServices := getActiveServices s yesterdayStr yesterdayWeekday
    let activeShapeIDs :=
      tripTimes.foldl (activeShapeStep activeServices yesterdayServices timeMinutes) []
    if activeShapeIDs.isEmpty then getRouteShapesLocked s routeID
    else activeShapeIDs.filterMap
      (fun sid => (mapLookup s.shapes sid).map (shapeWithDirection s sid))

/-- Membership characterization of the `activeShapeIDs` fold. -/
theorem mem_activeShapeIDs_foldl (activeServices yesterdayServices : List String)
    (timeMinutes : Int) (tts : List TripTimeEntry) (ids₀ : List String) (k : String) :
    k ∈ tts.foldl (activeShapeStep activeServices yesterdayServices timeMinutes) ids₀ ↔
      k ∈ ids₀ ∨ ∃ tt ∈ tts,
        (tripActiveToday activeServices timeMinutes tt ∨
          tripActiveYesterday yesterdayServices timeMinutes tt) ∧ k = tt.shapeID := by
  induction tts generalizing ids₀ with
  | nil => simp
  | cons tt rest ih =>
    rw [List.foldl_cons, ih]
    unfold activeShapeStep
    by_cases h₁ : tripActiveToday activeServices timeMinutes tt <;>
      by_cases h₂ : tripActiveYesterday yesterdayServices timeMinutes tt <;>
      simp only [h₁, h₂, if_pos, if_neg, not_false_iff, ite_true, ite_false,
        mem_setAdd, List.mem_cons] <;>
      constructor <;> intro hcase
    · rcases hcase with ((hk | rfl) | rfl) | ⟨tt', htt', hc, rfl⟩
      · exact Or.inl hk
      · exact Or.inr ⟨tt, Or.inl rfl, Or.inl h₁, rfl⟩
      · exact Or.inr ⟨tt, Or.inl rfl, Or.inl h₁, rfl⟩
      · exact Or.inr ⟨tt', Or.inr htt', hc, rfl⟩
    · rcases hcase with hk | ⟨tt', htt' | htt', hc, rfl⟩
      · exact Or.inl (Or.inl (Or.inl hk))
      · subst htt'; exact Or.inl (Or.inl (Or.inr rfl))
      · exact Or.inr ⟨tt', htt', hc, rfl⟩
    · rcases hcase with (hk | rfl) | ⟨tt', htt', hc, rfl⟩
      · exact Or.inl hk
      · exact Or.inr ⟨tt, Or.inl rfl, Or.inl h₁, rfl⟩
      · exact Or.inr ⟨tt', Or.inr htt', hc, rfl⟩
    · rcases hcase with hk | ⟨tt', htt' | htt', hc, rfl⟩
      · exact Or.inl (Or.inl hk)
      · subst htt'; exact Or.inl (Or.inr rfl)
      · exact Or.inr ⟨tt', htt', hc, rfl⟩
    · rcases hcase with (hk | rfl) | ⟨tt', htt', hc, rfl⟩
      · exact Or.inl hk
      · exact Or.inr ⟨tt, Or.inl rfl, Or.inr h₂, rfl⟩
      · exact Or.inr ⟨tt', Or.inr htt', hc, rfl⟩
    · rcases hcase with hk | ⟨tt', htt' | htt', hc, rfl⟩
      · exact Or.inl (Or.inl hk)
      · subst htt'
        rcases hc with hc | hc
        · exact absurd hc h₁
        · exact Or.inl (Or.inr rfl)
      · exact Or.inr ⟨tt', htt', hc, rfl⟩
    · rcases hcase with hk | ⟨tt', htt', hc, rfl⟩
      · exact Or.inl hk
      · exact Or.inr ⟨tt', Or.inr htt', hc, rfl⟩
    · rcases hcase with hk | ⟨tt', htt' | htt', hc, rfl⟩
      · exact Or.inl hk
      · subst htt'
        rcases hc with hc | hc
        · exact absurd hc h₁
        · exact absurd hc h₂
      · exact Or.inr ⟨tt', htt', hc, rfl⟩

/-- The fold is empty iff no trip-time entry passes either rule. -/
theorem activeShapeIDs_foldl_eq_nil (activeServices yesterdayServices : List String)
    (timeMinutes : Int) (tts : List TripTimeEntry) :
    tts.foldl (activeShapeStep activeServices yesterdayServices timeMinutes) [] = [] ↔
      ∀ tt ∈ tts, ¬(tripActiveToday activeServices timeMinutes tt ∨
        tripActiveYesterday yesterdayServices timeMinutes tt) := by
  rw [List.eq_nil_iff_forall_not_mem]
  constructor
  · intro h tt htt hc
    exact h tt.shapeID ((mem_activeShapeIDs_foldl _ _ _ _ _ _).mpr
      (Or.inr ⟨tt, htt, hc, rfl⟩))
  · intro h k hk
    rcases (mem_activeShapeIDs_foldl _ _ _ _ _ _).mp hk with hk | ⟨tt, htt, hc, -⟩
    · exact absurd hk (List.not_mem_nil k)
    · exact h tt htt hc

/-- **C3.** `GetActiveRouteShapes` returns exactly the shapes of trips whose
service is active today with `[start, end]` overlapping `[now − 30, now + 30]`,
plus those of trips active yesterday with `end > 1440` overlapping the window
around `now + 1440`; when the route has no trip-time entries, or the filter
selects nothing, it falls back to the unfiltered `getRouteShapes` result. -/
theorem getActiveRouteShapes_spec (s : GTFSStore) (routeID : String)
    (dateStr : String) (weekday : Weekday)
    (yesterdayStr : String) (yesterdayWeekday : Weekday) (timeMinutes : Int) :
    (mapLookup s.routeTripTimes routeID = none →
      GetActiveRouteShapes s routeID dateStr weekday yesterdayStr yesterdayWeekday
        timeMinutes = GetRouteShapes s routeID) ∧
    ∀ tts, mapLookup s.routeTripTimes routeID = some tts →
      ((∀ tt ∈ tts, ¬(tripActiveToday (getActiveServices s dateStr weekday) timeMinutes tt ∨
          tripActiveYesterday (getActiveServices s yesterdayStr yesterdayWeekday)
            timeMinutes tt)) →
        GetActiveRouteShapes s routeID dateStr weekday yesterdayStr yesterdayWeekday
          timeMinutes = GetRouteShapes s routeID) ∧
      ((∃ tt ∈ tts, tripActiveToday (getActiveServices s dateStr weekday) timeMinutes tt ∨
          tripActiveYesterday (getActiveServices s yesterdayStr yesterdayWeekday)
            timeMinutes tt) →
        ∀ sh, sh ∈ GetActiveRouteShapes s routeID dateStr weekday yesterdayStr
            yesterdayWeekday timeMinutes ↔
          ∃ tt ∈ tts,
            (tripActiveToday (getActiveServices s dateStr weekday) timeMinutes tt ∨
              tripActiveYesterday (getActiveServices s yesterdayStr yesterdayWeekday)
                timeMinutes tt) ∧
            (mapLookup s.shapes tt.shapeID).map (shapeWithDirection s tt.shapeID)
              = some sh) := by
  constructor
  · intro h
    unfold GetActiveRouteShapes
    rw [h]
    rfl
  · intro tts htts
    constructor
    · intro hnone
      unfold GetActiveRouteShapes
      rw [htts]
      simp only
      rw [List.isEmpty_iff.mpr ((activeShapeIDs_foldl_eq_nil _ _ _ _).mpr hnone), if_pos rfl]
      rfl
    · intro ⟨tt₀, htt₀, hc₀⟩ sh
      unfold GetActiveRouteShapes
      rw [htts]
      simp only
      have hne : (tts.foldl (activeShapeStep (getActiveServices s dateStr weekday)
          (getActiveServices s yesterdayStr yesterdayWeekday) timeMinutes) []).isEmpty
          ≠ true := by
        intro hempty
        exact ((activeShapeIDs_foldl_eq_nil _ _ _ _).mp
          (List.isEmpty_iff.mp hempty)) tt₀ htt₀ hc₀
      rw [if_neg hne]
      rw [List.mem_filterMap]
      constructor
      · rintro ⟨sid, hsid, hmap⟩
        rcases (mem_activeShapeIDs_foldl _ _ _ _ _ _).mp hsid with hsid | ⟨tt, htt, hc, rfl⟩
        · exact absurd hsid (List.not_mem_nil sid)
        · exact ⟨tt, htt, hc, hmap⟩
      · rintro ⟨tt, htt, hc, hmap⟩
        exact ⟨tt.shapeID,
          (mem_activeShapeIDs_foldl _ _ _ _ _ _).mpr (Or.inr ⟨tt, htt, hc, rfl⟩), hmap⟩

/-! ### The spec's schedule-time-filter scenario

Trips `T1 (service S1, 07:00–08:00 → minutes [420, 480])` and
`T2 (service S2, 23:30–25:30 → minutes [1410, 1530])` on route `R`; services
S1 and S2 run every day of 2024; the query date is Monday 2024-01-08 (so
yesterday is Sunday 2024-01-07) at `nowMinutes = 60`. -/

def calS1 : Calendar :=
  { serviceID := "S1", monday := true, tuesday := true, wednesday := true,
    thursday := true, friday := true, saturday := true, sunday := true,
    startDate := "20240101", endDate := "20241231" }

def calS2 : Calendar := { calS1 with serviceID := "S2" }

def tt1 : TripTimeEntry :=
  { shapeID := "SHP1", serviceID := "S1", directionID := 0,
    startMinutes := 420, endMinutes := 480 }

def tt2 : TripTimeEntry :=
  { shapeID := "SHP2", serviceID := "S2", directionID := 0,
    startMinutes := 1410, endMinutes := 1530 }

def shp1 : Shape := { id := "SHP1", points := [], directionID := none }

def shp2 : Shape := { id := "SHP2", points := [], directionID := none }

def mondayStore : GTFSStore :=
  { routes := [], routesByLine := [], shapes := [("SHP1", shp1), ("SHP2", shp2)],
    routeShapes := [("R", ["SHP1", "SHP2"])], stops := [], routeStops := [],
    routeTripTimes := [("R", [tt1, tt2])], stopSchedules := [], stopLines := [],
    trips := [], calendars := [("S1", calS1), ("S2", calS2)], calendarDates := [],
    shapeDirections := [], lastUpdate := 0 }

/-- Witness for `getActiveRouteShapes_spec` at the spec's concrete scenario:
with `nowMinutes = 60` on the Monday, `T2`'s shape is returned through the
yesterday-plus-overflow rule and `T1`'s shape is excluded. -/
theorem getActiveRouteShapes_spec_witness :
    mapLookup mondayStore.routeTripTimes "R" = some [tt1, tt2] ∧
    shapeWithDirection mondayStore "SHP2" shp2 ∈
      GetActiveRouteShapes mondayStore "R" "20240108" .monday "20240107" .sunday 60 ∧
    shapeWithDirection mondayStore "SHP1" shp1 ∉
      GetActiveRouteShapes mondayStore "R" "20240108" .monday "20240107" .sunday 60 := by
  refine ⟨by decide, ?_, ?_⟩
  · exact (((getActiveRouteShapes_spec mondayStore "R" "20240108" .monday "20240107"
      .sunday 60).2 [tt1, tt2] (by decide)).2 (by decide)
        (shapeWithDirection mondayStore "SHP2" shp2)).mpr (by decide)
  · intro hmem
    have h := (((getActiveRouteShapes_spec mondayStore "R" "20240108" .monday "20240107"
      .sunday 60).2 [tt1, tt2] (by decide)).2 (by decide)
        (shapeWithDirection mondayStore "SHP1" shp1)).mp hmem
    revert h
    decide

/-! ## GTFS time parsing (`pkg/gtfs`, `parseGTFSTimeToSeconds`)

Go's `strings.Split(s, ":")` and `strconv.Atoi` are modelled character-wise
on `String.data`.  `goAtoi` follows `strconv.Atoi`'s behaviour on the inputs
the parser feeds it: optional sign then digits; any syntax error yields the
value 0, which is what the source keeps after discarding the error (the
`int64` range clamp of `Atoi` is not modelled — the parser's inputs are far
below it). -/

/-- Go `strings.Split(s, string(sep))` on the character list: `"" → [""]`,
separators at the ends produce empty components. -/
def splitOnChar (sep : Char) : List Char → List (List Char)
  | [] => [[]]
  | c :: rest =>
    match splitOnChar sep rest with
    | [] => [[]]
    | cur :: parts => if c = sep then [] :: cur :: parts else (c :: cur) :: parts

/-- The numeric value of an all-digit character list; `none` on a syntax
error (empty or non-digit). -/
def digitsVal (cs : List Char) : Option Nat :=
  if cs.isEmpty then none
  else if cs.all Char.isDigit then
    some (cs.foldl (fun n c => n * 10 + (c.toNat - 48)) 0)
  else none

/-- Go `strconv.Atoi` with the error discarded (the parser writes
`h, _ := strconv.Atoi(…)`), so a syntax error leaves the zero value. -/
def goAtoi (cs : List Char) : Int :=
  match cs with
  | [] => 0
  | c :: rest =>
    if c = '-' then
      match digitsVal rest with
      | some n => -(n : Int)
      | none => 0
    else if c = '+' then
      match digitsVal rest with
      | some n => (n : Int)
      | none => 0
    else
      match digitsVal cs with
      | some n => (n : Int)
      | none => 0

/-- `parseGTFSTimeToSeconds` (gtfs parser, lines 740-764): split on `:`,
fewer than two components yields 0, negative components clamp to 0, missing
seconds default to 0, and the result is `H·3600 + M·60 + S` with hours free
to exceed 23. -/
def parseGTFSTimeToSeconds (timeStr : String) : Int :=
  let parts := splitOnChar ':' timeStr.data
  if parts.length < 2 then 0
  else
    let hours := goAtoi (parts.getD 0 [])
    let minutes := goAtoi (parts.getD 1 [])
    let seconds := if parts.length ≥ 3 then goAtoi (parts.getD 2 []) else 0
    let hours := if hours < 0 then 0 else hours
    let minutes := if minutes < 0 then 0 else minutes
    let seconds := if seconds < 0 then 0 else seconds
    hours * 3600 + minutes * 60 + seconds

/-! ### Decimal rendering round-trips through the GTFS time parser

`toString : Nat → String` is `Nat.repr`, built from `Nat.toDigitsCore`; the
lemmas below establish that it emits a non-empty all-digit string with the
right value, that `splitOnChar` recovers the three components of
`formatGTFSTime`'s output, and hence that parsing a formatted time returns
the original second count — for every `t`, hours beyond 23 included. -/

def charsVal (acc : Nat) (L : List Char) : Nat :=
  L.foldl (fun a c => a * 10 + (c.toNat - 48)) acc

theorem digitChar_toNat (m : Nat) (hm : m < 10) : (Nat.digitChar m).toNat - 48 = m := by
  interval_cases m <;> decide

theorem digitChar_isDigit (m : Nat) (hm : m < 10) : (Nat.digitChar m).isDigit = true := by
  interval_cases m <;> decide

theorem charsVal_append (acc : Nat) (L M : List Char) :
    charsVal acc (L ++ M) = charsVal (charsVal acc L) M := by
  unfold charsVal
  exact List.foldl_append _ _ _ _

theorem toDigitsCore_spec :
    ∀ (f n : Nat) (ds : List Char), n < 10 ^ (f + 1) →
      ∃ L, Nat.toDigitsCore 10 (f + 1) n ds = L ++ ds ∧ L ≠ [] ∧
        (∀ c ∈ L, c.isDigit = true) ∧
        ∀ acc, charsVal acc L = acc * 10 ^ L.length + n := by
  intro f
  induction f with
  | zero =>
    intro n ds h
    have h0 : n / 10 = 0 := by omega
    refine ⟨[Nat.digitChar (n % 10)], ?_, by simp, ?_, ?_⟩
    · unfold Nat.toDigitsCore
      rw [if_pos h0]
      rfl
    · intro c hc
      rw [List.mem_singleton] at hc
      subst hc
      exact digitChar_isDigit _ (Nat.mod_lt _ (by norm_num))
    · intro acc
      have hmod : n % 10 = n := by omega
      unfold charsVal
      simp only [List.foldl_cons, List.foldl_nil, List.length_singleton]
      rw [digitChar_toNat _ (Nat.mod_lt _ (by norm_num)), hmod, pow_one]
  | succ f ih =>
    intro n ds h
    by_cases h0 : n / 10 = 0
    · refine ⟨[Nat.digitChar (n % 10)], ?_, by simp, ?_, ?_⟩
      · unfold Nat.toDigitsCore
        rw [if_pos h0]
        rfl
      · intro c hc
        rw [List.mem_singleton] at hc
        subst hc
        exact digitChar_isDigit _ (Nat.mod_lt _ (by norm_num))
      · intro acc
        have hmod : n % 10 = n := by omega
        unfold charsVal
        simp only [List.foldl_cons, List.foldl_nil, List.length_singleton]
        rw [digitChar_toNat _ (Nat.mod_lt _ (by norm_num)), hmod, pow_one]
    · have h10 : n / 10 < 10 ^ (f + 1) := by
        rw [Nat.div_lt_iff_lt_mul (by norm_num : (0:Nat) < 10)]
        calc n < 10 ^ (f + 1 + 1) := h
          _ = 10 ^ (f + 1) * 10 := by rw [pow_succ]
      obtain ⟨L', hEq, hne, hdig, hval⟩ := ih (n / 10) (Nat.digitChar (n % 10) :: ds) h10
      refine ⟨L' ++ [Nat.digitChar (n % 10)], ?_, by simp, ?_, ?_⟩
      · show Nat.toDigitsCore 10 (f + 1 + 1) n ds = _
        unfold Nat.toDigitsCore
        rw [if_neg h0]
        rw [hEq]
        simp
      · intro c hc
        rcases List.mem_append.mp hc with hc | hc
        · exact hdig c hc
        · rw [List.mem_singleton] at hc
          subst hc
          exact digitChar_isDigit _ (Nat.mod_lt _ (by norm_num))
      · intro acc
        rw [charsVal_append, hval acc]
        unfold charsVal
        simp only [List.foldl_cons, List.foldl_nil, List.length_append,
          List.length_singleton]
        rw [digitChar_toNat _ (Nat.mod_lt _ (by norm_num))]
        calc (acc * 10 ^ L'.length + n / 10) * 10 + n % 10
            = acc * (10 ^ L'.length * 10) + (10 * (n / 10) + n % 10) := by ring
          _ = acc * 10 ^ (L'.length + 1) + n := by
              rw [pow_succ, Nat.div_add_mod]

theorem repr_data_spec (n : Nat) :
    (Nat.repr n).data ≠ [] ∧ (∀ c ∈ (Nat.repr n).data, c.isDigit = true) ∧
      charsVal 0 (Nat.repr n).data = n := by
  have hlt : n < 10 ^ (n + 1) := by
    calc n < 10 ^ n := Nat.lt_pow_self (by norm_num) n
      _ ≤ 10 ^ (n + 1) := Nat.pow_le_pow_right (by norm_num) (Nat.le_succ n)
  obtain ⟨L, hEq, hne, hdig, hval⟩ := toDigitsCore_spec n n [] hlt
  have hdata : (Nat.repr n).data = L := by
    show (Nat.toDigits 10 n).asString.data = L
    unfold Nat.toDigits
    rw [hEq, List.append_nil]
    rfl
  rw [hdata]
  refine ⟨hne, hdig, ?_⟩
  have := hval 0
  simpa using this

theorem toString_nat_eq (n : Nat) : toString n = Nat.repr n := rfl

theorem pad2_data_spec (n : Nat) :
    (pad2 n).data ≠ [] ∧ (∀ c ∈ (pad2 n).data, c.isDigit = true) ∧
      charsVal 0 (pad2 n).data = n := by
  obtain ⟨hne, hdig, hval⟩ := repr_data_spec n
  unfold pad2
  by_cases h : n < 10
  · rw [if_pos h]
    have hdata : ("0" ++ toString n).data = '0' :: (Nat.repr n).data := by
      rw [toString_nat_eq]
      rfl
    rw [hdata]
    refine ⟨by simp, ?_, ?_⟩
    · intro c hc
      rcases List.mem_cons.mp hc with hc | hc
      · subst hc; decide
      · exact hdig c hc
    · unfold charsVal
      simp only [List.foldl_cons]
      show charsVal (0 * 10 + ('0'.toNat - 48)) (Nat.repr n).data = n
      have : (0 : Nat) * 10 + ('0'.toNat - 48) = 0 := by decide
      rw [this, hval]
  · rw [if_neg h, toString_nat_eq]
    exact ⟨hne, hdig, hval⟩

theorem isDigit_ne_colon {c : Char} (h : c.isDigit = true) : c ≠ ':' := by
  intro hc
  subst hc
  exact absurd h (by decide)

theorem isDigit_ne_minus {c : Char} (h : c.isDigit = true) : c ≠ '-' := by
  intro hc
  subst hc
  exact absurd h (by decide)

theorem isDigit_ne_plus {c : Char} (h : c.isDigit = true) : c ≠ '+' := by
  intro hc
  subst hc
  exact absurd h (by decide)

theorem pad2_no_colon (n : Nat) : ':' ∉ (pad2 n).data := by
  intro hmem
  exact isDigit_ne_colon ((pad2_data_spec n).2.1 ':' hmem) rfl

theorem goAtoi_digits (cs : List Char) (hne : cs ≠ [])
    (hdig : ∀ c ∈ cs, c.isDigit = true) (v : Nat) (hv : charsVal 0 cs = v) :
    goAtoi cs = (v : Int) := by
  have hdv : digitsVal cs = some v := by
    unfold digitsVal
    rw [if_neg (by simpa using hne), if_pos (List.all_eq_true.mpr (by
      intro c hc; exact hdig c hc))]
    rw [← hv]
    rfl
  cases cs with
  | nil => exact absurd rfl hne
  | cons c rest =>
    have hc := hdig c (List.mem_cons_self c rest)
    unfold goAtoi
    dsimp only
    rw [if_neg (isDigit_ne_minus hc), if_neg (isDigit_ne_plus hc), hdv]

theorem pad2_goAtoi (n : Nat) : goAtoi (pad2 n).data = (n : Int) := by
  obtain ⟨hne, hdig, hval⟩ := pad2_data_spec n
  exact goAtoi_digits _ hne hdig n hval

theorem splitOnChar_ne_nil (sep : Char) (l : List Char) : splitOnChar sep l ≠ [] := by
  cases l with
  | nil => simp [splitOnChar]
  | cons c rest =>
    unfold splitOnChar
    cases splitOnChar sep rest with
    | nil => simp
    | cons cur parts => by_cases h : c = sep <;> simp [h]

theorem splitOnChar_cons (sep c : Char) (rest : List Char) :
    splitOnChar sep (c :: rest) =
      match splitOnChar sep rest with
      | [] => [[]]
      | cur :: parts => if c = sep then [] :: cur :: parts else (c :: cur) :: parts := rfl

theorem splitOnChar_append_sep (sep : Char) (a b : List Char) (ha : sep ∉ a) :
    splitOnChar sep (a ++ sep :: b) = a :: splitOnChar sep b := by
  induction a with
  | nil =>
    simp only [List.nil_append]
    rw [splitOnChar_cons]
    cases hs : splitOnChar sep b with
    | nil => exact absurd hs (splitOnChar_ne_nil sep b)
    | cons cur parts =>
      dsimp only
      rw [if_pos rfl]
  | cons c t ih =>
    have hc : c ≠ sep := fun h => ha (h ▸ List.mem_cons_self c t)
    have ht : sep ∉ t := fun h => ha (List.mem_cons_of_mem c h)
    show splitOnChar sep (c :: (t ++ sep :: b)) = (c :: t) :: splitOnChar sep b
    rw [splitOnChar_cons, ih ht]
    dsimp only
    rw [if_neg hc]

theorem splitOnChar_of_not_mem (sep : Char) (l : List Char) (h : sep ∉ l) :
    splitOnChar sep l = [l] := by
  induction l with
  | nil => rfl
  | cons c t ih =>
    have hc : c ≠ sep := fun hcc => h (hcc ▸ List.mem_cons_self c t)
    have ht : sep ∉ t := fun hcc => h (List.mem_cons_of_mem c hcc)
    rw [splitOnChar_cons, ih ht]
    dsimp only
    rw [if_neg hc]

theorem parse_split_three (str : String) (a b c : List Char)
    (hs : splitOnChar ':' str.data = [a, b, c]) :
    parseGTFSTimeToSeconds str =
      (if goAtoi a < 0 then 0 else goAtoi a) * 3600 +
      (if goAtoi b < 0 then 0 else goAtoi b) * 60 +
      (if goAtoi c < 0 then 0 else goAtoi c) := by
  unfold parseGTFSTimeToSeconds
  rw [hs]
  norm_num [List.getD]

theorem parse_format_roundtrip (t : Nat) :
    parseGTFSTimeToSeconds (formatGTFSTime t) = (t : Int) := by
  have hdata : (formatGTFSTime t).data =
      (pad2 (t / 3600)).data ++ ':' ::
        ((pad2 (t % 3600 / 60)).data ++ ':' :: (pad2 (t % 60)).data) := by
    show (pad2 (t / 3600) ++ ":" ++ pad2 (t % 3600 / 60) ++ ":" ++ pad2 (t % 60)).data = _
    simp [String.data_append]
  have hsplit : splitOnChar ':' (formatGTFSTime t).data =
      [(pad2 (t / 3600)).data, (pad2 (t % 3600 / 60)).data, (pad2 (t % 60)).data] := by
    rw [hdata, splitOnChar_append_sep _ _ _ (pad2_no_colon _),
      splitOnChar_append_sep _ _ _ (pad2_no_colon _),
      splitOnChar_of_not_mem _ _ (pad2_no_colon _)]
  rw [parse_split_three _ _ _ _ hsplit, pad2_goAtoi, pad2_goAtoi, pad2_goAtoi]
  rw [if_neg (by omega), if_neg (by omega), if_neg (by omega)]
  push_cast
  omega

/-- **C7.** `parseGTFSTimeToSeconds` and `formatGTFSTime` behave as claimed:
the spec's overflow pair (`"25:30:00" = 91800`, back to `"25:30:00"`),
missing-seconds defaulting, clamping of negative hour/minute/second
components, hours far beyond 23, zero-padded rendering — and, in general,
parsing any formatted second count returns it unchanged, so the `H·3600 +
M·60 + S` law holds for every rendered time with no 24-hour reduction. -/
theorem parseGTFSTime_formatGTFSTime_spec :
    parseGTFSTimeToSeconds "25:30:00" = 91800 ∧
    formatGTFSTime 91800 = "25:30:00" ∧
    parseGTFSTimeToSeconds "07:05" = 25500 ∧
    parseGTFSTimeToSeconds "-1:30:-5" = 1800 ∧
    parseGTFSTimeToSeconds "10:-5:07" = 36007 ∧
    parseGTFSTimeToSeconds "100:00:30" = 360030 ∧
    formatGTFSTime 360030 = "100:00:30" ∧
    formatGTFSTime 45 = "00:00:45" ∧
    formatGTFSTime 86400 = "24:00:00" ∧
    ∀ t : Nat, parseGTFSTimeToSeconds (formatGTFSTime t) = (t : Int) := by
  refine ⟨by decide, by decide, by decide, by decide, by decide, by decide,
    by decide, by decide, by decide, parse_format_roundtrip⟩

/-! ## HTTP handler helpers (`internal/handler`, GTFS handler)

`parseTimeToMinutes` and the decision logic of `GetRouteShape`.  The `"now"`
branch reads `time.Now()`; its `Hour()*60 + Minute()` value is the explicit
input `nowMinutes`. -/

/-- `parseTimeToMinutes` (handler, lines 564-577). -/
def parseTimeToMinutes (nowMinutes : Int) (s : String) : Int :=
  if s = "now" then nowMinutes
  else
    let parts := splitOnChar ':' s.data
    if parts.length < 2 then 0
    else goAtoi (parts.getD 0 []) * 60 + goAtoi (parts.getD 1 [])

/-- The observable outcome of `GTFSHandler.GetRouteShape`. -/
inductive RouteShapeResponse where
  | badRequest
  | notFound
  | ok (shapes : List Shape)
deriving DecidableEq, Repr

/-- `GTFSHandler.GetRouteShape` (handler, lines 98-155): 400 on missing line,
404 on unknown line, otherwise 200 with either the time-filtered or the
unfiltered shapes.  There is no 400 branch for the `time` parameter. -/
def getRouteShapeResponse (s : GTFSStore) (line : String) (timeParam : String)
    (dateStr : String) (weekday : Weekday)
    (yesterdayStr : String) (yesterdayWeekday : Weekday)
    (nowMinutes : Int) : RouteShapeResponse :=
  if line = "" then .badRequest
  else
    match mapLookup s.routesByLine line with
    | none => .notFound
    | some route =>
      if timeParam ≠ "" then
        let timeMinutes := parseTimeToMinutes nowMinutes timeParam
        .ok (GetActiveRouteShapes s route.id dateStr weekday
          yesterdayStr yesterdayWeekday timeMinutes)
      else .ok (GetRouteShapes s route.id)

/-- **C10.** Every non-`"now"` time string with fewer than two `:`-separated
components parses to 0 minutes, and `GetRouteShape` then answers 200 with
the active shapes computed at minute 0 (midnight) — the malformed parameter
is never rejected with a 400. -/
theorem parseTimeToMinutes_malformed (nowMinutes : Int) (s : String)
    (h1 : s ≠ "now") (h2 : (splitOnChar ':' s.data).length < 2) :
    parseTimeToMinutes nowMinutes s = 0 ∧
    (s ≠ "" →
      ∀ (store : GTFSStore) (line : String) (route : Route)
        (d : String) (w : Weekday) (yd : String) (yw : Weekday),
        line ≠ "" → mapLookup store.routesByLine line = some route →
        getRouteShapeResponse store line s d w yd yw nowMinutes =
          .ok (GetActiveRouteShapes store route.id d w yd yw 0)) := by
  have hparse : parseTimeToMinutes nowMinutes s = 0 := by
    unfold parseTimeToMinutes
    rw [if_neg h1, if_pos h2]
  refine ⟨hparse, ?_⟩
  intro h0 store line route d w yd yw hline hroute
  unfold getRouteShapeResponse
  rw [if_neg hline, hroute]
  simp only [if_pos h0, ne_eq, h0, not_false_iff, ite_true, hparse]

def routeR : Route :=
  { id := "R", shortName := "520", longName := "", rtype := 3, color := "", textColor := "" }

/-- `mondayStore` with route `R` reachable as line `520`. -/
def mondayStoreWithRoute : GTFSStore :=
  { mondayStore with routes := [("R", routeR)], routesByLine := [("520", routeR)] }

/-- Witness for `parseTimeToMinutes_malformed` at `s = "garbage"`. -/
theorem parseTimeToMinutes_malformed_witness :
    ("garbage" ≠ "now" ∧ (splitOnChar ':' "garbage".data).length < 2) ∧
    parseTimeToMinutes 725 "garbage" = 0 ∧
    getRouteShapeResponse mondayStoreWithRoute "520" "garbage" "20240108" .monday
      "20240107" .sunday 725 =
      .ok (GetActiveRouteShapes mondayStoreWithRoute "R" "20240108" .monday
        "20240107" .sunday 0) := by
  have h := parseTimeToMinutes_malformed 725 "garbage" (by decide) (by decide)
  exact ⟨⟨by decide, by decide⟩, h.1,
    h.2 (by decide) mondayStoreWithRoute "520" routeR "20240108" .monday "20240107" .sunday
      (by decide) (by decide)⟩

/-! ## Tile math (`internal/hub/tile.go`)

`TileID` is `float64` Web-Mercator arithmetic (`math.Tan`, `math.Log`); what
is modelled here is the integer rectangle loop of `TilesInBBox` (lines 84-90)
that runs between the two corner tiles `(x1, y1)` (from `TileID(maxLat,
minLon)`) and `(x2, y2)` (from `TileID(minLat, maxLon)`).  A tile id string
`"z/x/y"` is represented by the triple `(z, x, y)` (the string encoding is
injective and `ParseTileID` inverts it). -/

/-- `for v := lo; v <= hi; v++` collecting `v`. -/
def tileRange (lo hi : Int) : List Int :=
  if lo ≤ hi then (List.range (hi - lo + 1).toNat).map (fun i => lo + i) else []

/-- The nested x/y loop of `TilesInBBox` over the parsed corner tiles. -/
def tilesFromCorners (zoom x₁ y₁ x₂ y₂ : Int) : List (Int × Int × Int) :=
  (tileRange x₁ x₂).flatMap (fun x => (tileRange y₁ y₂).map (fun y => (zoom, x, y)))

/-- **C6.** The rectangle loop of `TilesInBBox` yields nothing whenever the
corner rows are inverted (`y₁ > y₂`).  With `minLat > maxLat` the top-left
corner is computed from `maxLat` and the bottom-right from `minLat`, so the
row computed first is the larger one whenever the two latitudes fall in
different tile rows, and the function returns `nil` instead of swapping. -/
theorem tilesFromCorners_empty_of_inverted (zoom x₁ y₁ x₂ y₂ : Int)
    (h : y₂ < y₁) : tilesFromCorners zoom x₁ y₁ x₂ y₂ = [] := by
  have hy : tileRange y₁ y₂ = [] := by
    unfold tileRange
    rw [if_neg (by omega)]
  unfold tilesFromCorners
  rw [hy]
  simp

/-- Witness for `tilesFromCorners_empty_of_inverted`: the corner tiles that
`TileID` produces at zoom 3 for an inverted box with `minLat = 0 > maxLat =
-45` are rows `y₁ = 5` (from latitude −45°) and `y₂ = 4` (from latitude 0°),
and the loop returns nothing. -/
theorem tilesFromCorners_empty_of_inverted_witness :
    (4 : Int) < 5 ∧ tilesFromCorners 3 4 5 4 4 = [] :=
  ⟨by decide, tilesFromCorners_empty_of_inverted 3 4 5 4 4 (by decide)⟩

/-! ## Schedule ingestor (`internal/ingestor`, `GTFSIngestor.update`)

The downloader, the parsed-artifact cache and the parser's error behaviour
are the `update` step's collaborators; they enter as oracle inputs (`none`
models a non-nil error).  In the repository snapshot the store's `UpdateAll`
takes a trailing `shapeDirections` argument that the ingestor file does not
pass; the model applies the eleven components the ingestor passes and leaves
`shapeDirections` unchanged. -/

/-- `gtfs.ParseResult` (the eleven components the ingestor forwards). -/
structure ParseResult where
  routes : List (String × Route)
  shapes : List (String × Shape)
  stops : List (String × Stop)
  routeShapes : List (String × List String)
  stopSchedules : List (String × List StopTimeCompact)
  stopLines : List (String × List StopLine)
  routeStops : List (String × List Stop)
  routeTripTimes : List (String × List TripTimeEntry)
  trips : List TripMeta
  calendars : List (String × Calendar)
  calendarDates : List (String × List CalendarDate)
deriving DecidableEq, Repr

/-- `GTFSStore.UpdateAll`: replace the snapshot, stamp `lastUpdate`, rebuild
`routesByLine` from the new routes. -/
def GTFSStore.updateAll (s : GTFSStore) (now : Int) (r : ParseResult) : GTFSStore :=
  { s with
    routes := r.routes
    shapes := r.shapes
    stops := r.stops
    routeShapes := r.routeShapes
    stopSchedules := r.stopSchedules
    stopLines := r.stopLines
    routeStops := r.routeStops
    routeTripTimes := r.routeTripTimes
    trips := r.trips
    calendars := r.calendars
    calendarDates := r.calendarDates
    lastUpdate := now
    routesByLine := r.routes.foldl (fun m p => mapSet m p.2.shortName p.2) [] }

/-- The ingestor's observable state: the schedule store and the ready flag. -/
structure GTFSIngestorState where
  store : GTFSStore
  ready : Bool
deriving DecidableEq, Repr

/-- `GTFSIngestor.update` (ingestor, lines 52-109), with its collaborators as
oracles: `download = none` models a download error (log and return);
`cacheLoad = none` a parsed-cache miss or load error; `parse a = none` a
parse error (log and return).  The returned `Bool` reports whether the
`onUpdate` hook fired (it fires exactly when the update reaches the store
swap and a hook is installed).  Failures of `SaveParsedResult` only log. -/
def gtfsIngestorUpdate {Archive : Type} (st : GTFSIngestorState) (now : Int)
    (download : Option Archive) (cacheLoad : Option ParseResult)
    (parse : Archive → Option ParseResult) (hasOnUpdate : Bool) :
    GTFSIngestorState × Bool :=
  match download with
  | none => (st, false)
  | some archive =>
    let result? :=
      match cacheLoad with
      | some result => some result
      | none => parse archive
    match result? with
    | none => (st, false)
    | some result =>
      ({ store := st.store.updateAll now result, ready := true }, hasOnUpdate)

/-- **C5.** When the archive download fails, or the archive fails to parse
with no usable cached artifact, the ingestor's update step leaves the
schedule store (and the ready flag) completely unchanged and never fires the
`onUpdate` hook — `UpdateAll` is not reached. -/
theorem gtfsIngestorUpdate_failure_keeps_store {Archive : Type}
    (st : GTFSIngestorState) (now : Int) (download : Option Archive)
    (cacheLoad : Option ParseResult) (parse : Archive → Option ParseResult)
    (hasOnUpdate : Bool)
    (h : download = none ∨
      (cacheLoad = none ∧ ∀ a, download = some a → parse a = none)) :
    gtfsIngestorUpdate st now download cacheLoad parse hasOnUpdate = (st, false) := by
  cases hd : download with
  | none => rfl
  | some archive =>
    rcases h with h | ⟨hcache, hparse⟩
    · rw [hd] at h
      exact Option.noConfusion h
    · unfold gtfsIngestorUpdate
      rw [hcache]
      dsimp only
      rw [hparse archive hd]

/-- The empty schedule store (`NewGTFSStore`). -/
def emptyGTFSStore : GTFSStore :=
  { routes := [], routesByLine := [], shapes := [], routeShapes := [], stops := [],
    routeStops := [], routeTripTimes := [], stopSchedules := [], stopLines := [],
    trips := [], calendars := [], calendarDates := [], shapeDirections := [],
    lastUpdate := 0 }

/-- Witness for `gtfsIngestorUpdate_failure_keeps_store`: a failed download
(and, separately, a cache miss plus parse failure) leaves the fresh ingestor
state untouched with the hook unfired. -/
theorem gtfsIngestorUpdate_failure_keeps_store_witness :
    gtfsIngestorUpdate ⟨emptyGTFSStore, false⟩ 5 (none : Option Unit) none
      (fun _ => none) true = (⟨emptyGTFSStore, false⟩, false) ∧
    gtfsIngestorUpdate ⟨emptyGTFSStore, false⟩ 5 (some ()) none
      (fun _ => none) true = (⟨emptyGTFSStore, false⟩, false) :=
  ⟨gtfsIngestorUpdate_failure_keeps_store _ 5 _ _ _ _ (Or.inl rfl),
   gtfsIngestorUpdate_failure_keeps_store _ 5 _ _ _ _
     (Or.inr ⟨rfl, fun _ _ => rfl⟩)⟩

/-! ## The GTFS parser pipeline (`pkg/gtfs`, `Parser.Parse`)

The archive is modelled after CSV decoding: one typed row per record, with
the `getField` lookups becoming the row's fields (zip/CSV decoding itself is
deterministic byte machinery).  `float64` parsing (`strconv.ParseFloat` for
coordinates) is likewise taken as already done.

Go map iteration order is randomised per run.  Wherever a map's content
alone determines the result, maps are the usual association lists; the one
place where iteration order is observable is the three derived-index
builders ranging over the `StopSchedules` map, so `ParseCore` takes the
presentation order of that map as an explicit function argument (a run of
the Go program corresponds to a presentation that permutes the association
list).  `sort.Slice` is modelled as a stable insertion sort; Go's sort is
unstable, so on tied keys its output order is some run-dependent
permutation — for the two-element ties in the counterexample below Go's
insertion sort leaves the input order exactly as this model does. -/

/-- `strconv.Atoi` returning `none` on a syntax error (`err != nil`). -/
def atoiOpt (cs : List Char) : Option Int :=
  match cs with
  | [] => none
  | c :: rest =>
    if c = '-' then (digitsVal rest).map (fun n => -(n : Int))
    else if c = '+' then (digitsVal rest).map (fun n => (n : Int))
    else (digitsVal cs).map (fun n => (n : Int))

/-- Stable insertion into a list sorted by the strict comparator `lt`. -/
def insertSorted {α : Type} (lt : α → α → Bool) (a : α) : List α → List α
  | [] => [a]
  | b :: rest => if lt b a then b :: insertSorted lt a rest else a :: b :: rest

/-- Stable sort by the strict comparator `lt` (models `sort.Slice`). -/
def sortBy {α : Type} (lt : α → α → Bool) (l : List α) : List α :=
  l.foldr (insertSorted lt) []

/-- One decoded `routes.txt` record. -/
structure RouteRow where
  routeID : String
  shortName : String
  longName : String
  routeType : String
  color : String
  textColor : String
deriving DecidableEq, Repr

/-- One decoded `shapes.txt` record (coordinates already float-parsed). -/
structure ShapeRow where
  shapeID : String
  lat : ℚ
  lon : ℚ
  sequence : Int
deriving DecidableEq, Repr

/-- One decoded `stops.txt` record. -/
structure StopRow where
  stopID : String
  code : String
  name : String
  lat : ℚ
  lon : ℚ
  zone : String
deriving DecidableEq, Repr

/-- One decoded `trips.txt` record. -/
structure TripRow where
  tripID : String
  routeID : String
  serviceID : String
  shapeID : String
  headsign : String
deriving DecidableEq, Repr

/-- One decoded `calendar.txt` record (weekday flags as the raw strings the
source compares against `"1"`). -/
structure CalendarRow where
  serviceID : String
  monday : String
  tuesday : String
  wednesday : String
  thursday : String
  friday : String
  saturday : String
  sunday : String
  startDate : String
  endDate : String
deriving DecidableEq, Repr

/-- One decoded `calendar_dates.txt` record. -/
structure CalendarDateRow where
  serviceID : String
  date : String
  exceptionType : String
deriving DecidableEq, Repr

/-- One decoded `stop_times.txt` record. -/
structure StopTimeRow where
  tripID : String
  stopID : String
  arrivalTime : String
  departureTime : String
  stopSequence : String
deriving DecidableEq, Repr

/-- The decoded archive (a missing file behaves as an empty row list). -/
structure ArchiveRows where
  routes : List RouteRow
  shapes : List ShapeRow
  stops : List StopRow
  trips : List TripRow
  calendars : List CalendarRow
  calendarDates : List CalendarDateRow
  stopTimes : List StopTimeRow
deriving DecidableEq, Repr

/-- `Parser.parseRoutes`: `route_type` defaults to 3 on empty or
unparsable input. -/
def parseRoutes (rows : List RouteRow) : List (String × Route) :=
  rows.foldl
    (fun m row =>
      let routeType :=
        if row.routeType = "" then 3
        else
          match atoiOpt row.routeType.data with
          | some parsed => parsed
          | none => 3
      mapSet m row.routeID
        { id := row.routeID, shortName := row.shortName, longName := row.longName,
          rtype := routeType, color := row.color, textColor := row.textColor })
    []

/-- `Parser.parseShapes`: accumulate points per shape (file order), then
sort each point list by `shape_pt_sequence`. -/
def parseShapes (rows : List ShapeRow) : List (String × Shape) :=
  let points := rows.foldl
    (fun m row =>
      mapSet m row.shapeID ((mapLookup m row.shapeID).getD [] ++
        [{ lat := row.lat, lon := row.lon, sequence := row.sequence }]))
    []
  points.foldl
    (fun m p =>
      mapSet m p.1
        { id := p.1, points := sortBy (fun a b => a.sequence < b.sequence) p.2,
          directionID := none })
    []

/-- `Parser.parseStops`. -/
def parseStops (rows : List StopRow) : List (String × Stop) :=
  rows.foldl
    (fun m row =>
      mapSet m row.stopID
        { id := row.stopID, code := row.code, name := row.name,
          lat := row.lat, lon := row.lon, zone := row.zone })
    []

/-- The state of `Parser.parseTrips`: the ordered `Trips` sequence, the
parse-only `tripIndex`, the per-route seen-shapes set and `RouteShapes`. -/
structure TripsAcc where
  trips : List TripMeta
  tripIndex : List (String × Nat)
  seen : List (String × List String)
  routeShapes : List (String × List String)
deriving DecidableEq, Repr

/-- `Parser.parseTrips`: index trips by first occurrence and collect the
ordered unique `shape_id`s per route. -/
def parseTrips (rows : List TripRow) : TripsAcc :=
  rows.foldl
    (fun acc row =>
      let acc :=
        if row.tripID ≠ "" ∧ row.routeID ≠ "" then
          match mapLookup acc.tripIndex row.tripID with
          | some _ => acc
          | none =>
            { acc with
              tripIndex := mapSet acc.tripIndex row.tripID acc.trips.length
              trips := acc.trips ++
                [{ id := row.tripID, routeID := row.routeID, serviceID := row.serviceID,
                   shapeID := row.shapeID, headsign := row.headsign, directionID := 0 }] }
        else acc
      if row.routeID = "" ∨ row.shapeID = "" then acc
      else
        let seenSet := (mapLookup acc.seen row.routeID).getD []
        if row.shapeID ∈ seenSet then acc
        else
          { acc with
            seen := mapSet acc.seen row.routeID (seenSet ++ [row.shapeID])
            routeShapes := mapSet acc.routeShapes row.routeID
              ((mapLookup acc.routeShapes row.routeID).getD [] ++ [row.shapeID]) })
    { trips := [], tripIndex := [], seen := [], routeShapes := [] }

/-- `Parser.parseCalendar`. -/
def parseCalendar (rows : List CalendarRow) : List (String × Calendar) :=
  rows.foldl
    (fun m row =>
      if row.serviceID = "" then m
      else
        mapSet m row.serviceID
          { serviceID := row.serviceID,
            monday := row.monday = "1", tuesday := row.tuesday = "1",
            wednesday := row.wednesday = "1", thursday := row.thursday = "1",
            friday := row.friday = "1", saturday := row.saturday = "1",
            sunday := row.sunday = "1",
            startDate := row.startDate, endDate := row.endDate })
    []

/-- `Parser.parseCalendarDates`. -/
def parseCalendarDates (rows : List CalendarDateRow) :
    List (String × List CalendarDate) :=
  rows.foldl
    (fun m row =>
      if row.serviceID = "" then m
      else
        mapSet m row.serviceID ((mapLookup m row.serviceID).getD [] ++
          [{ serviceID := row.serviceID, date := row.date,
             exceptionType := goAtoi row.exceptionType.data }]))
    []

/-- `Parser.parseStopTimes`: skip rows with unknown trips or empty stop ids,
parse the two GTFS times, clamp `stop_sequence` into `[0, 65535]`, and append
the compact row in file order.  The `uint32` casts wrap modulo `2^32`. -/
def parseStopTimes (tripIndex : List (String × Nat)) (rows : List StopTimeRow) :
    List (String × List StopTimeCompact) :=
  rows.foldl
    (fun m row =>
      match mapLookup tripIndex row.tripID with
      | none => m
      | some tripIdx =>
        if row.stopID = "" then m
        else
          let arrivalSeconds := parseGTFSTimeToSeconds row.arrivalTime
          let departureSeconds := parseGTFSTimeToSeconds row.departureTime
          let stopSeq := goAtoi row.stopSequence.data
          let stopSeq := if stopSeq < 0 then 0 else stopSeq
          let stopSeq := if stopSeq > 65535 then 65535 else stopSeq
          mapSet m row.stopID ((mapLookup m row.stopID).getD [] ++
            [{ tripIndex := tripIdx,
               arrivalSeconds := arrivalSeconds.toNat % 4294967296,
               departureSeconds := departureSeconds.toNat % 4294967296,
               stopSequence := stopSeq.toNat }]))
    []

/-- `Parser.buildStopLines`: per stop, group rows by route (first-seen
order in the stop's row list), collect distinct headsigns first-seen, then
sort the stop's lines by `line`. -/
def buildStopLines (routes : List (String × Route)) (trips : List TripMeta)
    (stopSchedules : List (String × List StopTimeCompact)) :
    List (String × List StopLine) :=
  stopSchedules.foldl
    (fun out p =>
      let maps := p.2.foldl
        (fun (maps : List (String × StopLine) × List (String × List String)) st =>
          if h : st.tripIndex < trips.length then
            let trip := trips.get ⟨st.tripIndex, h⟩
            let routeID := trip.routeID
            let maps? :=
              match mapLookup maps.1 routeID with
              | some _ => some maps
              | none =>
                match mapLookup routes routeID with
                | none => none
                | some route =>
                  some (mapSet maps.1 routeID
                      { routeID := routeID, line := route.shortName,
                        longName := route.longName, ltype := route.rtype,
                        color := route.color, headsigns := [] },
                    mapSet maps.2 routeID [])
            match maps? with
            | none => maps
            | some maps =>
              if trip.headsign ≠ "" ∧
                  trip.headsign ∉ (mapLookup maps.2 routeID).getD [] then
                (match mapLookup maps.1 routeID with
                  | some sl => mapSet maps.1 routeID
                      { sl with headsigns := sl.headsigns ++ [trip.headsign] }
                  | none => maps.1,
                 mapSet maps.2 routeID
                   ((mapLookup maps.2 routeID).getD [] ++ [trip.headsign]))
              else maps
          else maps)
        ([], [])
      let lines := maps.1.map Prod.snd
      mapSet out p.1 (sortBy (fun a b => goStringLt a.line b.line) lines))
    []

/-- `Parser.buildRouteStops`: bucket rows by route, keep the minimum
`stop_sequence` per stop, sort by that minimum and emit the stop records. -/
def buildRouteStops (trips : List TripMeta) (stops : List (String × Stop))
    (stopSchedules : List (String × List StopTimeCompact)) :
    List (String × List Stop) :=
  let routeStopMap := stopSchedules.foldl
    (fun m p =>
      let stopID := p.1
      p.2.foldl
        (fun m st =>
          if h : st.tripIndex < trips.length then
            let routeID := (trips.get ⟨st.tripIndex, h⟩).routeID
            if routeID = "" then m
            else
              let stopMap := (mapLookup m routeID).getD []
              let seq : Int := st.stopSequence
              match mapLookup stopMap stopID with
              | none => mapSet m routeID (mapSet stopMap stopID seq)
              | some minSeq =>
                if seq < minSeq then mapSet m routeID (mapSet stopMap stopID seq) else m
          else m)
        m)
    []
  routeStopMap.foldl
    (fun out p =>
      let entries := sortBy (fun a b => a.2 < b.2) p.2
      let routeStopList := entries.foldl
        (fun acc e =>
          match mapLookup stops e.1 with
          | some stop => acc ++ [stop]
          | none => acc)
        []
      mapSet out p.1 routeStopList)
    []

/-- The per-row update of `Parser.buildTripTimeRanges`'s `minTime` /
`maxTime` / `seen` arrays, as a function from trip index to the optional
`(min, max)` pair. -/
def rangeStep (tripCount : Nat) (r : Nat → Option (Int × Int))
    (st : StopTimeCompact) : Nat → Option (Int × Int) :=
  if st.tripIndex < tripCount then
    let dep : Int := (st.departureSeconds / 60 : Nat)
    let arr : Int := (st.arrivalSeconds / 60 : Nat)
    fun i =>
      if i = st.tripIndex then
        match r st.tripIndex with
        | some (mn, mx) =>
          some ((if dep < mn then dep else mn), (if arr > mx then arr else mx))
        | none => some (dep, arr)
      else r i
  else r

/-- `Parser.buildTripTimeRanges`: per-trip min departure / max arrival
minutes over all stop-time rows, then one `TripTimeEntry` per trip with a
non-empty shape, in trip order. -/
def buildTripTimeRanges (trips : List TripMeta)
    (stopSchedules : List (String × List StopTimeCompact)) :
    List (String × List TripTimeEntry) :=
  if trips.length = 0 then []
  else
    let ranges := stopSchedules.foldl
      (fun r p => p.2.foldl (rangeStep trips.length) r)
      ((fun _ => none) : Nat → Option (Int × Int))
    trips.enum.foldl
      (fun rtt ie =>
        let idx := ie.1
        let trip := ie.2
        if trip.shapeID = "" then rtt
        else
          match ranges idx with
          | none => rtt
          | some (mn, mx) =>
            mapSet rtt trip.routeID ((mapLookup rtt trip.routeID).getD [] ++
              [{ shapeID := trip.shapeID, serviceID := trip.serviceID,
                 directionID := 0, startMinutes := mn, endMinutes := mx }]))
      []

/-- `Parser.Parse` after CSV decoding: the stage functions in source order,
with the presentation order of the `StopSchedules` map for the three derived
builders supplied as `present` (one Go run corresponds to one permutation of
the association list). -/
def ParseCore (a : ArchiveRows)
    (present : List (String × List StopTimeCompact) →
      List (String × List StopTimeCompact)) : ParseResult :=
  let routes := parseRoutes a.routes
  let shapes := parseShapes a.shapes
  let stops := parseStops a.stops
  let tacc := parseTrips a.trips
  let calendars := parseCalendar a.calendars
  let calendarDates := parseCalendarDates a.calendarDates
  let stopSchedules := parseStopTimes tacc.tripIndex a.stopTimes
  let presented := present stopSchedules
  { routes := routes, shapes := shapes, stops := stops,
    routeShapes := tacc.routeShapes,
    stopSchedules := stopSchedules,
    stopLines := buildStopLines routes tacc.trips presented,
    routeStops := buildRouteStops tacc.trips stops presented,
    routeTripTimes := buildTripTimeRanges tacc.trips presented,
    trips := tacc.trips, calendars := calendars, calendarDates := calendarDates }

/-! ### Determinism of `buildTripTimeRanges` under map iteration order -/

/-- Pointwise characterization of `rangeStep`. -/
theorem rangeStep_apply (tc : Nat) (r : Nat → Option (Int × Int))
    (st : StopTimeCompact) (i : Nat) :
    rangeStep tc r st i =
      if st.tripIndex < tc ∧ i = st.tripIndex then
        match r st.tripIndex with
        | some (mn, mx) =>
          some ((if ((st.departureSeconds / 60 : Nat) : Int) < mn
              then ((st.departureSeconds / 60 : Nat) : Int) else mn),
            (if ((st.arrivalSeconds / 60 : Nat) : Int) > mx
              then ((st.arrivalSeconds / 60 : Nat) : Int) else mx))
        | none => some (((st.departureSeconds / 60 : Nat) : Int),
            ((st.arrivalSeconds / 60 : Nat) : Int))
      else r i := by
  unfold rangeStep
  by_cases h : st.tripIndex < tc
  · rw [if_pos h]
    by_cases hi : i = st.tripIndex
    · rw [if_pos hi, if_pos ⟨h, hi⟩]
    · rw [if_neg hi, if_neg (fun hc => hi hc.2)]
  · rw [if_neg h, if_neg (fun hc => h hc.1)]

/-- Two `rangeStep` updates commute: updates at different trip indices are
independent, and at the same index the min/max operations commute. -/
theorem rangeStep_comm (tc : Nat) (r : Nat → Option (Int × Int))
    (a b : StopTimeCompact) :
    rangeStep tc (rangeStep tc r a) b = rangeStep tc (rangeStep tc r b) a := by
  funext i
  simp only [rangeStep_apply]
  by_cases h3 : a.tripIndex = b.tripIndex
  · rw [h3]
    rcases hr : r b.tripIndex with - | ⟨mn, mx⟩ <;>
      simp only [hr] <;>
      split_ifs <;>
      simp_all [Option.some.injEq, Prod.mk.injEq] <;>
      omega
  · by_cases h4 : i = a.tripIndex <;> by_cases h5 : i = b.tripIndex
    · exact absurd (h4 ▸ h5) h3
    · have hba : ¬(b.tripIndex < tc ∧ a.tripIndex = b.tripIndex) := fun hc => h3 hc.2
      have hab2 : ¬(a.tripIndex < tc ∧ b.tripIndex = a.tripIndex) :=
        fun hc => h3 hc.2.symm
      simp only [h4, h5, and_true, and_false, if_neg, not_false_iff, hba, hab2, ite_false]
    · have hba : ¬(b.tripIndex < tc ∧ a.tripIndex = b.tripIndex) := fun hc => h3 hc.2
      have hab2 : ¬(a.tripIndex < tc ∧ b.tripIndex = a.tripIndex) :=
        fun hc => h3 hc.2.symm
      simp only [h4, h5, and_true, and_false, if_neg, not_false_iff, hba, hab2, ite_false]
    · simp only [h4, h5, and_false, if_neg, not_false_iff, ite_false]

/-- Pulling a single commuting step out of a fold. -/
theorem foldl_comm_single {α β : Type} (g : β → α → β)
    (hg : ∀ r a b, g (g r a) b = g (g r b) a) :
    ∀ (l : List α) (r : β) (a : α), l.foldl g (g r a) = g (l.foldl g r) a := by
  intro l
  induction l with
  | nil => intro r a; rfl
  | cons x t ih =>
    intro r a
    simp only [List.foldl_cons]
    rw [hg r a x]
    exact ih (g r x) a

/-- Folds of a pairwise-commuting step over two lists commute. -/
theorem foldl_lists_comm {α β : Type} (g : β → α → β)
    (hg : ∀ r a b, g (g r a) b = g (g r b) a) :
    ∀ (l₁ l₂ : List α) (r : β), l₂.foldl g (l₁.foldl g r) = l₁.foldl g (l₂.foldl g r) := by
  intro l₁
  induction l₁ with
  | nil => intro l₂ r; rfl
  | cons x t ih =>
    intro l₂ r
    simp only [List.foldl_cons]
    rw [ih l₂ (g r x), foldl_comm_single g hg l₂ r x]

/-- `buildTripTimeRanges` is invariant under permutations of the
`StopSchedules` association list — its min/max accumulation is
order-insensitive, and the output iterates the `Trips` sequence. -/
theorem buildTripTimeRanges_perm (trips : List TripMeta)
    (l₁ l₂ : List (String × List StopTimeCompact)) (hp : l₁.Perm l₂) :
    buildTripTimeRanges trips l₁ = buildTripTimeRanges trips l₂ := by
  unfold buildTripTimeRanges
  by_cases htc : trips.length = 0
  · rw [if_pos htc, if_pos htc]
  · rw [if_neg htc, if_neg htc]
    have hranges :
        l₁.foldl (fun r p => p.2.foldl (rangeStep trips.length) r)
          ((fun _ => none) : Nat → Option (Int × Int)) =
        l₂.foldl (fun r p => p.2.foldl (rangeStep trips.length) r)
          ((fun _ => none) : Nat → Option (Int × Int)) := by
      apply hp.foldl_eq'
      intro x _ y _ z
      exact foldl_lists_comm (rangeStep trips.length)
        (rangeStep_comm trips.length) x.2 y.2 z
    rw [hranges]

/-- **C4 (amended).** For any archive and any two runs — any two
presentations of the `StopSchedules` map to the derived-index builders —
the parsed `Routes`, `Shapes`, `Stops`, `RouteShapes`, `StopSchedules`,
`Trips`, `Calendars` and `CalendarDates` components agree, and so do the
`RouteTripTimes` sequences; only `StopLines` and `RouteStops` may differ
(in the order of sort-tied entries). -/
theorem parse_deterministic_components (a : ArchiveRows)
    (σ₁ σ₂ : List (String × List StopTimeCompact) → List (String × List StopTimeCompact))
    (h₁ : (σ₁ (parseStopTimes (parseTrips a.trips).tripIndex a.stopTimes)).Perm
      (parseStopTimes (parseTrips a.trips).tripIndex a.stopTimes))
    (h₂ : (σ₂ (parseStopTimes (parseTrips a.trips).tripIndex a.stopTimes)).Perm
      (parseStopTimes (parseTrips a.trips).tripIndex a.stopTimes)) :
    (ParseCore a σ₁).routes = (ParseCore a σ₂).routes ∧
    (ParseCore a σ₁).shapes = (ParseCore a σ₂).shapes ∧
    (ParseCore a σ₁).stops = (ParseCore a σ₂).stops ∧
    (ParseCore a σ₁).routeShapes = (ParseCore a σ₂).routeShapes ∧
    (ParseCore a σ₁).stopSchedules = (ParseCore a σ₂).stopSchedules ∧
    (ParseCore a σ₁).trips = (ParseCore a σ₂).trips ∧
    (ParseCore a σ₁).calendars = (ParseCore a σ₂).calendars ∧
    (ParseCore a σ₁).calendarDates = (ParseCore a σ₂).calendarDates ∧
    (ParseCore a σ₁).routeTripTimes = (ParseCore a σ₂).routeTripTimes := by
  refine ⟨rfl, rfl, rfl, rfl, rfl, rfl, rfl, rfl, ?_⟩
  show buildTripTimeRanges (parseTrips a.trips).trips
      (σ₁ (parseStopTimes (parseTrips a.trips).tripIndex a.stopTimes)) =
    buildTripTimeRanges (parseTrips a.trips).trips
      (σ₂ (parseStopTimes (parseTrips a.trips).tripIndex a.stopTimes))
  exact buildTripTimeRanges_perm _ _ _ (h₁.trans h₂.symm)

/-! ### The tie archive: two stops sharing the minimum stop sequence

Route `R1` has trips `TA` (visiting stop `X` at sequence 1) and `TB`
(visiting stop `Y` at sequence 1).  `buildRouteStops` sorts the route's
stops by minimum sequence — a tie — so the emitted order follows the
iteration order of the `StopSchedules` map, which Go randomises per run. -/

def stopRowX : StopRow :=
  { stopID := "X", code := "", name := "Stop X", lat := 52, lon := 21, zone := "" }

def stopRowY : StopRow :=
  { stopID := "Y", code := "", name := "Stop Y", lat := 52, lon := 22, zone := "" }

def tripRowA : TripRow :=
  { tripID := "TA", routeID := "R1", serviceID := "S", shapeID := "SH", headsign := "" }

def tripRowB : TripRow :=
  { tripID := "TB", routeID := "R1", serviceID := "S", shapeID := "SH", headsign := "" }

def stRowA : StopTimeRow :=
  { tripID := "TA", stopID := "X", arrivalTime := "07:00:00",
    departureTime := "07:00:00", stopSequence := "1" }

def stRowB : StopTimeRow :=
  { tripID := "TB", stopID := "Y", arrivalTime := "07:30:00",
    departureTime := "07:30:00", stopSequence := "1" }

def tieArchive : ArchiveRows :=
  { routes := [], shapes := [], stops := [stopRowX, stopRowY],
    trips := [tripRowA, tripRowB], calendars := [], calendarDates := [],
    stopTimes := [stRowA, stRowB] }

/-- **C4 (counterexample).** Parsing the tie archive under two different
(but content-equal) iteration orders of the `StopSchedules` map yields
different `RouteStops` sequences — `[Stop X, Stop Y]` versus
`[Stop Y, Stop X]` under route `R1` — so two runs of `Parse` on the same
archive need not produce equal snapshots. -/
theorem parse_route_stops_counterexample :
    (List.reverse (parseStopTimes (parseTrips tieArchive.trips).tripIndex
        tieArchive.stopTimes)).Perm
      (parseStopTimes (parseTrips tieArchive.trips).tripIndex tieArchive.stopTimes) ∧
    (ParseCore tieArchive id).routeStops ≠
      (ParseCore tieArchive List.reverse).routeStops := by
  refine ⟨List.reverse_perm _, ?_⟩
  decide

/-- Witness for `parse_deterministic_components` at the tie archive with
the identity and the reversing presentations. -/
theorem parse_deterministic_components_witness :
    (List.reverse (parseStopTimes (parseTrips tieArchive.trips).tripIndex
        tieArchive.stopTimes)).Perm
      (parseStopTimes (parseTrips tieArchive.trips).tripIndex tieArchive.stopTimes) ∧
    (ParseCore tieArchive id).routeTripTimes =
      (ParseCore tieArchive List.reverse).routeTripTimes :=
  ⟨List.reverse_perm _,
   (parse_deterministic_components tieArchive id List.reverse (List.Perm.refl _)
     (List.reverse_perm _)).2.2.2.2.2.2.2.2⟩

end Wabus
